import Mathlib

/-!
LibrePCB measure tool: snap resolver, candidate extraction and session state.

A shallow embedding of `libs/librepcb/editor/utils/measuretool.cpp`, and of
`Device::checkAttributesValidity` from `libs/librepcblibrary/dev/device.cpp`.

* Lengths are integers (nanometres, `qint64` in the source). They are modelled
  on `Int`; signed 64-bit overflow is undefined behaviour in C++ and is outside
  the model. C++ integer division truncates toward zero, so `Length / 2` is
  `Int.tdiv`.
* `QSet<Point>` is modelled by the list of its elements without repetition.
  The iteration order of a real `QSet` is decided by hashing; every statement
  about the resolver below quantifies over an arbitrary list, hence over every
  possible iteration order.
* Operations of the core library whose code is not part of the sources at hand
  (vector length, grid rounding, rotation, placement transform, number
  formatting, configured key sequences) are fields of `Env`.
* The rendering surface (`GraphicsView`), the status bar signal and the
  clipboard are write-only sinks; they are carried along in the tool state.
-/

namespace librepcb

/-! ## Basic value types -/

/-- C++ `Length::operator/` with an integer divisor: truncating division.
A `Length` is a signed number of nanometres, an `Int` here. -/
def Length.div (a b : Int) : Int := Int.tdiv a b

/-- Angle in microdegrees. -/
abbrev Angle := Int

/-- A 2D coordinate; `Point()` is the origin. -/
structure Point where
  x : Int
  y : Int
deriving DecidableEq, Repr

instance : Inhabited Point := ⟨⟨0, 0⟩⟩

instance : Add Point := ⟨fun a b => ⟨a.x + b.x, a.y + b.y⟩⟩

instance : Sub Point := ⟨fun a b => ⟨a.x - b.x, a.y - b.y⟩⟩

/-- A path vertex: position plus arc angle to the next vertex. -/
structure Vertex where
  pos : Point
  angle : Angle
deriving DecidableEq, Repr

/-- A path is its list of vertices. -/
structure Path where
  vertices : List Vertex
deriving DecidableEq, Repr

/-- Placement of a library element: `Transform()` is `Transform.identity`,
`Transform(item)` takes position, rotation and mirror flag of the item. -/
structure Transform where
  mPosition : Point
  mRotation : Angle
  mMirrored : Bool
deriving DecidableEq, Repr

/-- The default-constructed transform `Transform()`. -/
def Transform.identity : Transform := ⟨⟨0, 0⟩, 0, false⟩

/-- Core-library operations and host configuration used by the tool but defined
outside `measuretool.cpp`.

* `getLength` is `Point::getLength()`; its result type `UnsignedLength` is
  non-negative by construction, hence `Nat`.
* `mappedToGrid` is `Point::mappedToGrid(interval)`.
* `rotated` is `Point::rotated(angle)` (about the origin).
* `transformMap` is `Transform::map(point)`.
* `overlayText start end` is the formatted read-out block (floating point
  formatting in the display unit).
* `lengthToString` is `Toolbox::floatToString(unit.convertToUnit(len), 12, ..)`.
* `copyKeys`, `deleteKeys` are the key sequences bound to the copy and remove
  commands, already rendered as text. -/
structure Env where
  getLength : Point → Nat
  mappedToGrid : Point → Nat → Point
  rotated : Point → Angle → Point
  transformMap : Transform → Point → Point
  overlayText : Point → Point → String
  lengthToString : Nat → String
  copyKeys : List String
  deleteKeys : List String

/-! ## Path helpers -/

/-- `Path::addVertex(pos)`: append a straight vertex. -/
def Path.addVertex (p : Path) (pos : Point) : Path :=
  ⟨p.vertices ++ [⟨pos, 0⟩]⟩

/-- `Path::translated(offset)`. -/
def Path.translated (p : Path) (offset : Point) : Path :=
  ⟨p.vertices.map fun v => ⟨v.pos + offset, v.angle⟩⟩

/-- `Path::rotated(angle)`: every vertex position rotated about the origin. -/
def Path.rotated (env : Env) (p : Path) (a : Angle) : Path :=
  ⟨p.vertices.map fun v => ⟨env.rotated v.pos a, v.angle⟩⟩

/-- `Transform::map(path)`: every vertex position mapped. -/
def Transform.mapPath (env : Env) (t : Transform) (p : Path) : Path :=
  ⟨p.vertices.map fun v => ⟨env.transformMap t v.pos, v.angle⟩⟩

/-! ## Sets of points -/

/-- `QSet<Point>` as a repetition-free list. -/
abbrev QSet := List Point

/-- `QSet::insert`: no effect when the point is already present. -/
def QSet.insert (s : QSet) (p : Point) : QSet :=
  if p ∈ s then s else s ++ [p]

/-- `QSet::operator|=`: insert every element of `other`. -/
def QSet.unite (s other : QSet) : QSet :=
  other.foldl QSet.insert s

/-! ## Candidate extraction: paths and circles -/

/-- `MeasureTool::snapCandidatesFromPath`. -/
def snapCandidatesFromPath (path : Path) : QSet :=
  path.vertices.foldl (fun candidates v => QSet.insert candidates v.pos) []

/-- `MeasureTool::snapCandidatesFromCircle`. -/
def snapCandidatesFromCircle (center : Point) (diameter : Int) : QSet :=
  let candidates : QSet := []
  let candidates := QSet.insert candidates center
  let candidates := QSet.insert candidates (center + ⟨0, Length.div diameter 2⟩)
  let candidates := QSet.insert candidates (center + ⟨0, Length.div (-diameter) 2⟩)
  let candidates := QSet.insert candidates (center + ⟨Length.div diameter 2, 0⟩)
  let candidates := QSet.insert candidates (center + ⟨Length.div (-diameter) 2, 0⟩)
  candidates

/-! ## Library and project geometry (read-only drawing context) -/

/-- Symbol pin: origin, length (`UnsignedLength`) and rotation. -/
structure SymbolPin where
  position : Point
  length : Nat
  rotation : Angle
deriving DecidableEq, Repr

/-- Polygon of a symbol, footprint, schematic or board. -/
structure Polygon where
  path : Path
deriving DecidableEq, Repr

/-- Circle with a `PositiveLength` diameter. -/
structure Circle where
  center : Point
  diameter : Nat
deriving DecidableEq, Repr

/-- Text of a symbol: only its anchor matters here. -/
structure Text where
  position : Point
deriving DecidableEq, Repr

/-- Stroke text of a footprint: only its anchor matters here. -/
structure StrokeText where
  position : Point
deriving DecidableEq, Repr

/-- Hole: diameter and path (one vertex for a round hole, more for a slot). -/
structure Hole where
  diameter : Nat
  path : Path
deriving DecidableEq, Repr

/-- Footprint pad; `outline` is the value of `getOutline()`, derived from the
pad shape by the core library. -/
structure FootprintPad where
  position : Point
  rotation : Angle
  width : Nat
  height : Nat
  drillDiameter : Nat
  outline : Path
deriving DecidableEq, Repr

/-- Library symbol. -/
structure Symbol where
  pins : List SymbolPin
  polygons : List Polygon
  circles : List Circle
  texts : List Text
deriving DecidableEq, Repr

/-- Library footprint. -/
structure Footprint where
  pads : List FootprintPad
  polygons : List Polygon
  circles : List Circle
  strokeTexts : List StrokeText
  holes : List Hole
deriving DecidableEq, Repr

/-- Symbol placed on a schematic. -/
structure SI_Symbol where
  position : Point
  rotation : Angle
  mirrored : Bool
  libSymbol : Symbol
deriving DecidableEq, Repr

/-- Net segment of a schematic: positions of its net points and net labels. -/
structure SI_NetSegment where
  netPoints : List Point
  netLabels : List Point
deriving DecidableEq, Repr

/-- Schematic sheet. -/
structure Schematic where
  symbols : List SI_Symbol
  netSegments : List SI_NetSegment
  polygons : List Polygon
  texts : List Text
deriving DecidableEq, Repr

/-- Device placed on a board. -/
structure BI_Device where
  position : Point
  rotation : Angle
  mirrored : Bool
  libFootprint : Footprint
deriving DecidableEq, Repr

/-- Board via; `outline` is the value of `getVia().getOutline()`. -/
structure BI_Via where
  position : Point
  size : Nat
  drillDiameter : Nat
  outline : Path
deriving DecidableEq, Repr

/-- Net segment of a board. -/
structure BI_NetSegment where
  netPoints : List Point
  vias : List BI_Via
deriving DecidableEq, Repr

/-- Copper plane: outline and computed fragments. -/
structure BI_Plane where
  outline : Path
  fragments : List Path
deriving DecidableEq, Repr

/-- Board. -/
structure Board where
  deviceInstances : List BI_Device
  netSegments : List BI_NetSegment
  planes : List BI_Plane
  polygons : List Polygon
  strokeTexts : List StrokeText
  holes : List Hole
deriving DecidableEq, Repr

/-- `Transform(symbol)`. -/
def Transform.ofSymbol (s : SI_Symbol) : Transform := ⟨s.position, s.rotation, s.mirrored⟩

/-- `Transform(device)`. -/
def Transform.ofDevice (d : BI_Device) : Transform := ⟨d.position, d.rotation, d.mirrored⟩

/-! ## Candidate extraction: symbols and footprints -/

/-- `MeasureTool::snapCandidatesFromSymbol`. -/
def snapCandidatesFromSymbol (env : Env) (symbol : Symbol) (transform : Transform) : QSet :=
  let candidates : QSet := []
  let candidates := symbol.pins.foldl (fun candidates p =>
    let candidates := QSet.insert candidates (env.transformMap transform p.position)
    QSet.insert candidates (env.transformMap transform
      (p.position + env.rotated ⟨(p.length : Int), 0⟩ p.rotation))) candidates
  let candidates := symbol.polygons.foldl (fun candidates p =>
    QSet.unite candidates (snapCandidatesFromPath (Transform.mapPath env transform p.path)))
    candidates
  let candidates := symbol.circles.foldl (fun candidates c =>
    QSet.unite candidates
      (snapCandidatesFromCircle (env.transformMap transform c.center) (c.diameter : Int)))
    candidates
  let candidates := symbol.texts.foldl (fun candidates s =>
    QSet.insert candidates (env.transformMap transform s.position)) candidates
  candidates

/-- The per-pad body of the first loop of `snapCandidatesFromFootprint`. -/
def snapCandidatesFromPad (env : Env) (transform : Transform) (candidates : QSet)
    (p : FootprintPad) : QSet :=
  let candidates := QSet.insert candidates (env.transformMap transform p.position)
  let path := p.outline
  let path := path.addVertex ⟨Length.div (p.width : Int) 2, 0⟩
  let path := path.addVertex ⟨Length.div (-(p.width : Int)) 2, 0⟩
  let path := path.addVertex ⟨0, Length.div (p.height : Int) 2⟩
  let path := path.addVertex ⟨0, Length.div (-(p.height : Int)) 2⟩
  let candidates := QSet.unite candidates (snapCandidatesFromPath
    (Transform.mapPath env transform ((path.rotated env p.rotation).translated p.position)))
  if p.drillDiameter > 0 then
    QSet.unite candidates
      (snapCandidatesFromCircle (env.transformMap transform p.position) (p.drillDiameter : Int))
  else candidates

/-- The per-hole body shared by `snapCandidatesFromFootprint` and `setBoard`:
a circle at every (mapped) vertex of the hole path. -/
def snapCandidatesFromHole (mapPoint : Point → Point) (candidates : QSet) (h : Hole) : QSet :=
  h.path.vertices.foldl (fun candidates vertex =>
    QSet.unite candidates (snapCandidatesFromCircle (mapPoint vertex.pos) (h.diameter : Int)))
    candidates

/-- `MeasureTool::snapCandidatesFromFootprint`. -/
def snapCandidatesFromFootprint (env : Env) (footprint : Footprint) (transform : Transform) :
    QSet :=
  let candidates : QSet := []
  let candidates := footprint.pads.foldl (snapCandidatesFromPad env transform) candidates
  let candidates := footprint.polygons.foldl (fun candidates p =>
    QSet.unite candidates (snapCandidatesFromPath (Transform.mapPath env transform p.path)))
    candidates
  let candidates := footprint.circles.foldl (fun candidates c =>
    QSet.unite candidates
      (snapCandidatesFromCircle (env.transformMap transform c.center) (c.diameter : Int)))
    candidates
  let candidates := footprint.strokeTexts.foldl (fun candidates s =>
    QSet.insert candidates (env.transformMap transform s.position)) candidates
  let candidates := footprint.holes.foldl
    (snapCandidatesFromHole (env.transformMap transform)) candidates
  candidates

/-- The per-via body of `setBoard`. -/
def snapCandidatesFromVia (candidates : QSet) (via : BI_Via) : QSet :=
  let candidates := QSet.insert candidates via.position
  let path := via.outline
  let path := path.addVertex ⟨Length.div (via.size : Int) 2, 0⟩
  let path := path.addVertex ⟨Length.div (-(via.size : Int)) 2, 0⟩
  let path := path.addVertex ⟨0, Length.div (via.size : Int) 2⟩
  let path := path.addVertex ⟨0, Length.div (-(via.size : Int)) 2⟩
  let candidates := QSet.unite candidates (snapCandidatesFromPath (path.translated via.position))
  QSet.unite candidates (snapCandidatesFromCircle via.position (via.drillDiameter : Int))

/-! ## Rendering surface and tool state -/

/-- `GraphicsView::CursorOptions` flags used by the tool. -/
structure CursorOptions where
  cross : Bool
  circle : Bool
deriving DecidableEq, Repr

/-- The scene shown by a view; only its selection area (a painter path, here
its points) is touched by the tool. -/
structure GraphicsScene where
  selectionArea : List Point
deriving DecidableEq, Repr

/-- The part of `GraphicsView` the tool reads (`gridInterval`, `scene`) and
writes (all other fields). `cursorShape = some 2` is `Qt::CrossCursor`. -/
structure GraphicsView where
  gridInterval : Nat
  scene : Option GraphicsScene
  grayOut : Bool
  cursorShape : Option Nat
  overlayText : String
  sceneCursor : Option (Point × CursorOptions)
  rulerPositions : Option (Point × Point)
deriving DecidableEq, Repr

/-- `Qt::CrossCursor`. -/
def CrossCursor : Nat := 2

/-- `Qt::ShiftModifier`. -/
def ShiftModifier : Nat := 0x02000000

/-- `Qt::Key_Shift`. -/
def Key_Shift : Nat := 0x01000020

/-- `QFlags::testFlag`. -/
def testFlag (flags flag : Nat) : Bool :=
  (flags &&& flag) == flag && (flag != 0 || flags == flag)

/-- Key event: key code and modifier flags. -/
structure QKeyEvent where
  key : Nat
  modifiers : Nat
deriving DecidableEq, Repr

/-- Mouse event on the scene: `scenePos` is the position already converted by
`Point::fromPx`. -/
structure QGraphicsSceneMouseEvent where
  scenePos : Point
  modifiers : Nat
deriving DecidableEq, Repr

/-- The members of `MeasureTool`, the view it points to (`none` once the view
is gone), and the two sinks it writes to: the emitted
`statusBarMessageChanged(message, timeout)` signals and the texts handed to the
clipboard, both oldest first. -/
structure MeasureTool where
  mView : Option GraphicsView
  mSnapCandidates : QSet
  mLastScenePos : Point
  mCursorPos : Point
  mCursorSnapped : Bool
  mStartPos : Option Point
  mEndPos : Option Point
  statusBarMessages : List (String × Option Nat)
  clipboard : List String
deriving DecidableEq, Repr

/-- `MeasureTool::MeasureTool(view)`. -/
def MeasureTool.new (view : GraphicsView) : MeasureTool where
  mView := some view
  mSnapCandidates := []
  mLastScenePos := ⟨0, 0⟩
  mCursorPos := ⟨0, 0⟩
  mCursorSnapped := false
  mStartPos := none
  mEndPos := none
  statusBarMessages := []
  clipboard := []

/-- `emit statusBarMessageChanged(message, timeout)`. -/
def MeasureTool.emitStatusBarMessage (t : MeasureTool) (message : String)
    (timeout : Option Nat) : MeasureTool :=
  { t with statusBarMessages := t.statusBarMessages ++ [(message, timeout)] }

/-! ## Private methods -/

/-- `MeasureTool::updateRulerPositions`. -/
def updateRulerPositions (env : Env) (t : MeasureTool) : MeasureTool :=
  match t.mView with
  | none => t
  | some view =>
    let cursorOptions : CursorOptions := ⟨false, false⟩
    let cursorOptions :=
      if t.mStartPos.isNone || t.mEndPos.isSome then { cursorOptions with cross := true }
      else cursorOptions
    let cursorOptions :=
      if t.mCursorSnapped then { cursorOptions with circle := true } else cursorOptions
    let view := { view with sceneCursor := some (t.mCursorPos, cursorOptions) }
    let startPos := match t.mStartPos with
      | some p => p
      | none => t.mCursorPos
    let endPos := match t.mEndPos with
      | some p => p
      | none => t.mCursorPos
    let view :=
      if t.mStartPos.isSome then { view with rulerPositions := some (startPos, endPos) }
      else { view with rulerPositions := none }
    let view := { view with overlayText := env.overlayText startPos endPos }
    { t with mView := some view }

/-- One iteration of the candidate scan of `updateCursorPosition`; the state is
`(nearestCandidate, nearestDistance)`. -/
def scanStep (env : Env) (cursorPos : Point) (acc : Point × Int) (candidate : Point) :
    Point × Int :=
  let distance : Nat := env.getLength (cursorPos - candidate)
  if acc.2 < 0 ∨ (distance : Int) < acc.2 then (candidate, (distance : Int)) else acc

/-- The candidate scan of `updateCursorPosition`, started from
`(Point(), Length(-1))`. -/
def scanNearest (env : Env) (cursorPos : Point) (candidates : QSet) : Point × Int :=
  candidates.foldl (scanStep env cursorPos) (⟨0, 0⟩, -1)

/-- `MeasureTool::updateCursorPosition`. -/
def updateCursorPosition (env : Env) (t : MeasureTool) (modifiers : Nat) : MeasureTool :=
  match t.mView with
  | none => t
  | some view =>
    let t := { t with mCursorPos := t.mLastScenePos, mCursorSnapped := false }
    let t :=
      if !testFlag modifiers ShiftModifier then
        let nearest := scanNearest env t.mCursorPos t.mSnapCandidates
        let nearestCandidate := nearest.1
        let nearestDistance := nearest.2
        let posOnGrid := env.mappedToGrid t.mCursorPos view.gridInterval
        let gridDistance : Int := (env.getLength (t.mCursorPos - posOnGrid) : Int)
        if nearestDistance ≥ 0 ∧ nearestDistance ≤ gridDistance then
          { t with mCursorPos := nearestCandidate, mCursorSnapped := true }
        else
          { t with mCursorPos := posOnGrid }
      else t
    updateRulerPositions env t

/-- The snap-disable note of the status bar. -/
def disableSnapNote : String := " " ++ "(press Shift to disable snap)"

/-- `MeasureTool::updateStatusBarMessage`. -/
def updateStatusBarMessage (env : Env) (t : MeasureTool) : MeasureTool :=
  if t.mEndPos.isSome && !env.copyKeys.isEmpty && !env.deleteKeys.isEmpty then
    t.emitStatusBarMessage
      ("Press " ++ env.copyKeys.headD "" ++ " to copy the value to clipboard or " ++
        env.deleteKeys.headD "" ++ " to clear the measurement") none
  else if t.mStartPos.isSome && t.mEndPos.isNone then
    t.emitStatusBarMessage ("Click to specify the end point" ++ disableSnapNote) none
  else
    t.emitStatusBarMessage ("Click to specify the start point" ++ disableSnapNote) none

/-! ## General methods -/

/-- `MeasureTool::setFootprint`. -/
def setFootprint (env : Env) (t : MeasureTool) (footprint : Option Footprint) : MeasureTool :=
  let t := { t with mSnapCandidates := [] }
  match footprint with
  | some footprint =>
    let candidates := QSet.unite t.mSnapCandidates
      (snapCandidatesFromFootprint env footprint Transform.identity)
    { t with mSnapCandidates := candidates }
  | none => t

/-- `MeasureTool::setSymbol`. -/
def setSymbol (env : Env) (t : MeasureTool) (symbol : Option Symbol) : MeasureTool :=
  let t := { t with mSnapCandidates := [] }
  match symbol with
  | some symbol =>
    let candidates := QSet.unite t.mSnapCandidates
      (snapCandidatesFromSymbol env symbol Transform.identity)
    { t with mSnapCandidates := candidates }
  | none => t

/-- The candidates `setSchematic` collects from a schematic, starting from the
cleared set. -/
def snapCandidatesFromSchematic (env : Env) (schematic : Schematic) : QSet :=
  let candidates : QSet := []
  let candidates := schematic.symbols.foldl (fun candidates symbol =>
    let candidates := QSet.insert candidates symbol.position
    QSet.unite candidates
      (snapCandidatesFromSymbol env symbol.libSymbol (Transform.ofSymbol symbol))) candidates
  let candidates := schematic.netSegments.foldl (fun candidates segment =>
    let candidates := segment.netPoints.foldl QSet.insert candidates
    segment.netLabels.foldl QSet.insert candidates) candidates
  let candidates := schematic.polygons.foldl (fun candidates polygon =>
    QSet.unite candidates (snapCandidatesFromPath polygon.path)) candidates
  let candidates := schematic.texts.foldl (fun candidates text =>
    QSet.insert candidates text.position) candidates
  candidates

/-- `MeasureTool::setSchematic`. -/
def setSchematic (env : Env) (t : MeasureTool) (schematic : Option Schematic) : MeasureTool :=
  let t := { t with mSnapCandidates := [] }
  match schematic with
  | some schematic => { t with mSnapCandidates := snapCandidatesFromSchematic env schematic }
  | none => t

/-- The candidates `setBoard` collects from a board, starting from the cleared
set. -/
def snapCandidatesFromBoard (env : Env) (board : Board) : QSet :=
  let candidates : QSet := []
  let candidates := board.deviceInstances.foldl (fun candidates device =>
    let candidates := QSet.insert candidates device.position
    QSet.unite candidates
      (snapCandidatesFromFootprint env device.libFootprint (Transform.ofDevice device)))
    candidates
  let candidates := board.netSegments.foldl (fun candidates segment =>
    let candidates := segment.netPoints.foldl QSet.insert candidates
    segment.vias.foldl snapCandidatesFromVia candidates) candidates
  let candidates := board.planes.foldl (fun candidates plane =>
    let candidates := QSet.unite candidates (snapCandidatesFromPath plane.outline)
    plane.fragments.foldl (fun candidates fragment =>
      QSet.unite candidates (snapCandidatesFromPath fragment)) candidates) candidates
  let candidates := board.polygons.foldl (fun candidates polygon =>
    QSet.unite candidates (snapCandidatesFromPath polygon.path)) candidates
  let candidates := board.strokeTexts.foldl (fun candidates text =>
    QSet.insert candidates text.position) candidates
  let candidates := board.holes.foldl (snapCandidatesFromHole id) candidates
  candidates

/-- `MeasureTool::setBoard`. -/
def setBoard (env : Env) (t : MeasureTool) (board : Option Board) : MeasureTool :=
  let t := { t with mSnapCandidates := [] }
  match board with
  | some board => { t with mSnapCandidates := snapCandidatesFromBoard env board }
  | none => t

/-- `MeasureTool::enter`; `globalPos` is the value of
`mView->mapGlobalPosToScenePos(QCursor::pos(), true, true)`. -/
def enter (env : Env) (t : MeasureTool) (globalPos : Point) : MeasureTool :=
  let t :=
    match t.mView with
    | some view =>
      let view :=
        match view.scene with
        | some _ => { view with scene := some ⟨[]⟩ }
        | none => view
      let view := { view with grayOut := true }
      let view := { view with cursorShape := some CrossCursor }
      { t with mView := some view, mLastScenePos := globalPos }
    | none => t
  let t := updateCursorPosition env t 0
  updateStatusBarMessage env t

/-- `MeasureTool::leave`. -/
def leave (t : MeasureTool) : MeasureTool :=
  let t :=
    match t.mView with
    | some view =>
      let view := { view with cursorShape := none }
      let view := { view with overlayText := "" }
      let view := { view with sceneCursor := none }
      let view := { view with rulerPositions := none }
      let view := { view with grayOut := false }
      { t with mView := some view }
    | none => t
  t.emitStatusBarMessage "" none

/-! ## Event handlers -/

/-- `MeasureTool::processKeyPressed`. -/
def processKeyPressed (env : Env) (t : MeasureTool) (e : QKeyEvent) : MeasureTool × Bool :=
  if e.key = Key_Shift then (updateCursorPosition env t e.modifiers, true)
  else (t, false)

/-- `MeasureTool::processKeyReleased`. -/
def processKeyReleased (env : Env) (t : MeasureTool) (e : QKeyEvent) : MeasureTool × Bool :=
  if e.key = Key_Shift then (updateCursorPosition env t e.modifiers, true)
  else (t, false)

/-- `MeasureTool::processGraphicsSceneMouseMoved`. -/
def processGraphicsSceneMouseMoved (env : Env) (t : MeasureTool)
    (e : QGraphicsSceneMouseEvent) : MeasureTool × Bool :=
  let t := { t with mLastScenePos := e.scenePos }
  let t := updateCursorPosition env t e.modifiers
  (t, true)

/-- `MeasureTool::processGraphicsSceneLeftMouseButtonPressed`. -/
def processGraphicsSceneLeftMouseButtonPressed (env : Env) (t : MeasureTool)
    (_e : QGraphicsSceneMouseEvent) : MeasureTool × Bool :=
  let t :=
    if t.mStartPos.isNone || t.mEndPos.isSome then
      { t with mStartPos := some t.mCursorPos, mEndPos := none }
    else
      { t with mEndPos := some t.mCursorPos }
  let t := updateRulerPositions env t
  let t := updateStatusBarMessage env t
  (t, true)

/-- `MeasureTool::processCopy`. -/
def processCopy (env : Env) (t : MeasureTool) : MeasureTool × Bool :=
  match t.mView, t.mStartPos, t.mEndPos with
  | some _, some startPos, some endPos =>
    let diff := endPos - startPos
    let str := env.lengthToString (env.getLength diff)
    let t := { t with clipboard := t.clipboard ++ [str] }
    let t := t.emitStatusBarMessage ("Copied to clipboard: " ++ str) (some 3000)
    (t, true)
  | _, _, _ => (t, false)

/-- `MeasureTool::processRemove`. -/
def processRemove (env : Env) (t : MeasureTool) : MeasureTool × Bool :=
  if t.mStartPos.isSome && t.mEndPos.isSome then
    let t := { t with mStartPos := none, mEndPos := none }
    let t := updateRulerPositions env t
    let t := updateStatusBarMessage env t
    (t, true)
  else (t, false)

/-- `MeasureTool::processAbortCommand`. -/
def processAbortCommand (env : Env) (t : MeasureTool) : MeasureTool × Bool :=
  if t.mStartPos.isSome && t.mEndPos.isNone then
    let t := { t with mStartPos := none }
    let t := updateRulerPositions env t
    let t := updateStatusBarMessage env t
    (t, true)
  else (t, false)

/-! ## Session states and host events -/

/-- The three session states of the design: `Empty` (no start point),
`Pending` (start set, end unset), `Complete` (start and end set). -/
inductive SessionState where
  | Empty
  | Pending
  | Complete
deriving DecidableEq, Repr

/-- The session state a tool is in, read off `mStartPos` and `mEndPos`. -/
def MeasureTool.state (t : MeasureTool) : SessionState :=
  match t.mStartPos, t.mEndPos with
  | none, _ => SessionState.Empty
  | some _, none => SessionState.Pending
  | some _, some _ => SessionState.Complete

/-- The events the host delivers to the tool. -/
inductive Event where
  | click (e : QGraphicsSceneMouseEvent)
  | move (e : QGraphicsSceneMouseEvent)
  | keyPressed (e : QKeyEvent)
  | keyReleased (e : QKeyEvent)
  | copy
  | remove
  | abort
  | enter (globalPos : Point)
  | leave
  | setSymbol (symbol : Option Symbol)
  | setFootprint (footprint : Option Footprint)
  | setSchematic (schematic : Option Schematic)
  | setBoard (board : Option Board)

/-- Deliver one event: call the matching method of the tool. -/
def applyEvent (env : Env) (t : MeasureTool) : Event → MeasureTool
  | Event.click e => (processGraphicsSceneLeftMouseButtonPressed env t e).1
  | Event.move e => (processGraphicsSceneMouseMoved env t e).1
  | Event.keyPressed e => (processKeyPressed env t e).1
  | Event.keyReleased e => (processKeyReleased env t e).1
  | Event.copy => (processCopy env t).1
  | Event.remove => (processRemove env t).1
  | Event.abort => (processAbortCommand env t).1
  | Event.enter globalPos => enter env t globalPos
  | Event.leave => leave t
  | Event.setSymbol symbol => setSymbol env t symbol
  | Event.setFootprint footprint => setFootprint env t footprint
  | Event.setSchematic schematic => setSchematic env t schematic
  | Event.setBoard board => setBoard env t board

/-- Deliver a sequence of events, first to last. -/
def runEvents (env : Env) (t : MeasureTool) (events : List Event) : MeasureTool :=
  events.foldl (applyEvent env) t

/-- The session invariant: an end point is present only with a start point. -/
def SessionInv (t : MeasureTool) : Prop :=
  t.mEndPos.isSome = true → t.mStartPos.isSome = true

/-! ## A concrete environment -/

/-- Largest `k ≤ fuel` with `k * k ≤ n` (0 when there is none). -/
def isqrtAux (n : Nat) : Nat → Nat
  | 0 => 0
  | k + 1 => if (k + 1) * (k + 1) ≤ n then k + 1 else isqrtAux n k

/-- Integer square root, rounded down. -/
def isqrt (n : Nat) : Nat := isqrtAux n n

/-- Modelled from the spec: `Point::getLength`, missing from the sources, as
the Euclidean length `|p|` of the design, rounded to the nearest length unit. -/
def euclideanLength (p : Point) : Nat :=
  (isqrt (4 * (p.x.natAbs * p.x.natAbs + p.y.natAbs * p.y.natAbs)) + 1) / 2

/-- Round `v` to the nearest multiple of `interval` (`v` itself when the
interval is 0). -/
def roundToGrid (v : Int) (interval : Nat) : Int :=
  if interval = 0 then v else ((2 * v + interval) / (2 * interval)) * interval

/-- Modelled from the spec: `Point::mappedToGrid`, missing from the sources, as
"the raw position rounded to the nearest grid intersection". -/
def nearestGridPoint (p : Point) (interval : Nat) : Point :=
  ⟨roundToGrid p.x interval, roundToGrid p.y interval⟩

/-- Modelled from the spec: `Point::rotated`, missing from the sources, for the
angles that need no floating point: multiples of 90° (in microdegrees) rotate
counter-clockwise exactly; other angles leave the point where it is. -/
def rotatedExact (p : Point) (a : Angle) : Point :=
  let a := a % 360000000
  if a = 90000000 then ⟨-p.y, p.x⟩
  else if a = 180000000 then ⟨-p.x, -p.y⟩
  else if a = 270000000 then ⟨p.y, -p.x⟩
  else p

/-- Modelled from the spec: `Transform::map`, missing from the sources, as the
"affine placement (rotation + translation, optionally mirroring)" of the
design: mirror, then rotate, then translate. -/
def placementMap (t : Transform) (p : Point) : Point :=
  let p : Point := if t.mMirrored then ⟨-p.x, p.y⟩ else p
  rotatedExact p t.mRotation + t.mPosition

/-- A concrete environment: Euclidean length, nearest-grid rounding, exact
rotation, lengths printed in nanometres, default key bindings. -/
def stdEnv : Env where
  getLength := euclideanLength
  mappedToGrid := nearestGridPoint
  rotated := rotatedExact
  transformMap := placementMap
  overlayText := fun s e =>
    "X0: " ++ toString s.x ++ " Y0: " ++ toString s.y ++
    " X1: " ++ toString e.x ++ " Y1: " ++ toString e.y
  lengthToString := fun n => toString n
  copyKeys := ["Ctrl+C"]
  deleteKeys := ["Del"]

/-- A view with a grid interval of 10 and nothing displayed yet. -/
def sampleView : GraphicsView where
  gridInterval := 10
  scene := some ⟨[]⟩
  grayOut := false
  cursorShape := none
  overlayText := ""
  sceneCursor := none
  rulerPositions := none

/-- A tool on `sampleView` with the given pointer position, candidates and
session. -/
def sampleTool (raw : Point) (candidates : QSet) (startPos endPos : Option Point) :
    MeasureTool :=
  { MeasureTool.new sampleView with
    mLastScenePos := raw, mCursorPos := raw, mSnapCandidates := candidates,
    mStartPos := startPos, mEndPos := endPos }

/-- A footprint with one pad at the origin, width 2000, height 1000,
rotation 0, no drill and an empty outline. -/
def samplePadFootprint : Footprint :=
  ⟨[⟨⟨0, 0⟩, 0, 2000, 1000, 0, ⟨[]⟩⟩], [], [], [], []⟩

/-- A via at (100,200) with size 60 and drill 30. -/
def sampleVia : BI_Via := ⟨⟨100, 200⟩, 60, 30, ⟨[]⟩⟩

/-- A board with one net segment holding `sampleVia`. -/
def sampleBoard : Board := ⟨[], [⟨[], [sampleVia]⟩], [], [], [], []⟩

/-- A symbol with a single pin at the origin, length 10, rotation 0. -/
def samplePinSymbol : Symbol := ⟨[⟨⟨0, 0⟩, 10, 0⟩], [], [], []⟩

/-- The concrete environment with no key sequence bound to the copy command. -/
def noCopyKeyEnv : Env := { stdEnv with copyKeys := [] }

/-! ## Re-ordering of children -/

/-- The polygon `b` is `a` with the vertices of its path permuted. -/
def Polygon.Permuted (a b : Polygon) : Prop :=
  List.Perm a.path.vertices b.path.vertices

/-- The hole `b` is `a` with the vertices of its path permuted. -/
def Hole.Permuted (a b : Hole) : Prop :=
  a.diameter = b.diameter ∧ List.Perm a.path.vertices b.path.vertices

/-- The pad `b` is `a` with the vertices of its outline permuted. -/
def FootprintPad.Permuted (a b : FootprintPad) : Prop :=
  a.position = b.position ∧ a.rotation = b.rotation ∧ a.width = b.width ∧
    a.height = b.height ∧ a.drillDiameter = b.drillDiameter ∧
    List.Perm a.outline.vertices b.outline.vertices

/-- The list `l2` is obtained from `l1` by permuting it and then replacing
every element by an `R`-related one. -/
def Reordered {α : Type} (R : α → α → Prop) (l1 l2 : List α) : Prop :=
  ∃ mid : List α, List.Perm l1 mid ∧ List.Forall₂ R mid l2

/-- The symbol `b` is `a` with its lists of children permuted and the vertices
within its polygon paths permuted. -/
def Symbol.Reordered (a b : Symbol) : Prop :=
  List.Perm a.pins b.pins ∧ librepcb.Reordered Polygon.Permuted a.polygons b.polygons ∧
    List.Perm a.circles b.circles ∧ List.Perm a.texts b.texts

/-- The footprint `b` is `a` with its lists of children permuted and the
vertices within its pad outlines, polygon paths and hole paths permuted. -/
def Footprint.Reordered (a b : Footprint) : Prop :=
  librepcb.Reordered FootprintPad.Permuted a.pads b.pads ∧
    librepcb.Reordered Polygon.Permuted a.polygons b.polygons ∧
    List.Perm a.circles b.circles ∧ List.Perm a.strokeTexts b.strokeTexts ∧
    librepcb.Reordered Hole.Permuted a.holes b.holes

/-- A symbol with two pins and a triangle. -/
def sampleSymbolA : Symbol :=
  ⟨[⟨⟨0, 0⟩, 10, 0⟩, ⟨⟨0, 5⟩, 10, 0⟩], [⟨⟨[⟨⟨1, 1⟩, 0⟩, ⟨⟨2, 1⟩, 0⟩, ⟨⟨1, 2⟩, 0⟩]⟩⟩], [], []⟩

/-- The symbol `sampleSymbolA` with its pins swapped and the triangle started
at another vertex. -/
def sampleSymbolB : Symbol :=
  ⟨[⟨⟨0, 5⟩, 10, 0⟩, ⟨⟨0, 0⟩, 10, 0⟩], [⟨⟨[⟨⟨1, 2⟩, 0⟩, ⟨⟨1, 1⟩, 0⟩, ⟨⟨2, 1⟩, 0⟩]⟩⟩], [], []⟩

/-! ## Library device (`libs/librepcblibrary/dev/device.cpp`, namespace `library`) -/

/-- A `QUuid` as its 128-bit value; the null UUID is all zero. -/
structure QUuid where
  value : Nat
deriving DecidableEq, Repr

/-- `QUuid::isNull`. -/
def QUuid.isNull (u : QUuid) : Bool := u.value == 0

/-- The attributes of the base class `LibraryElement` given to its
constructor. -/
structure LibraryElement where
  mUuid : QUuid
  mVersion : String
  mAuthor : String
  mName : String
  mDescription : String
  mKeywords : String
deriving DecidableEq, Repr

/-- A library device: base class attributes, component and package UUID, and
the pad-signal map as the list of its (pad UUID, signal UUID) entries. -/
structure Device where
  base : LibraryElement
  mComponentUuid : QUuid
  mPackageUuid : QUuid
  mPadSignalMap : List (QUuid × QUuid)
deriving DecidableEq, Repr

/-- `mPadSignalMap.keys()`. -/
def Device.padKeys (d : Device) : List QUuid := d.mPadSignalMap.map Prod.fst

/-- The `foreach` loop of `Device::checkAttributesValidity` over the map keys:
the first null key returns false, the end of the loop returns true. -/
def padKeysLoop : List QUuid → Bool
  | [] => true
  | padUuid :: rest => if padUuid.isNull then false else padKeysLoop rest

/-- `Device::checkAttributesValidity`; `baseCheck` is
`LibraryElement::checkAttributesValidity`, whose code is in another file. -/
def Device.checkAttributesValidity (baseCheck : LibraryElement → Bool) (d : Device) : Bool :=
  if !baseCheck d.base then false
  else if d.mComponentUuid.isNull then false
  else if d.mPackageUuid.isNull then false
  else padKeysLoop d.padKeys

/-- A device with non-null component and package UUID and one pad mapped to
the null signal UUID. -/
def sampleDevice : Device :=
  ⟨⟨⟨1⟩, "0.1", "author", "name", "description", "keywords"⟩, ⟨2⟩, ⟨3⟩, [(⟨4⟩, ⟨0⟩)]⟩

/-- A base check that accepts an element exactly when its UUID is not null. -/
def sampleBaseCheck (e : LibraryElement) : Bool := !e.mUuid.isNull

/-! ## Auxiliary facts -/

theorem QSet.mem_insert (s : QSet) (q p : Point) :
    p ∈ QSet.insert s q ↔ p ∈ s ∨ p = q := by
  unfold QSet.insert
  split
  · constructor
    · intro h
      exact Or.inl h
    · rintro (h | h)
      · exact h
      · subst h
        assumption
  · simp

theorem Point.sub_self (p : Point) : p - p = ⟨0, 0⟩ := by
  show (⟨p.x - p.x, p.y - p.y⟩ : Point) = ⟨0, 0⟩
  simp

theorem Point.eq_of_sub_eq_zero (p q : Point) (h : p - q = ⟨0, 0⟩) : q = p := by
  obtain ⟨px, py⟩ := p
  obtain ⟨qx, qy⟩ := q
  have h2 : (⟨px - qx, py - qy⟩ : Point) = ⟨0, 0⟩ := h
  have hx : px - qx = (0 : Int) := congrArg Point.x h2
  have hy : py - qy = (0 : Int) := congrArg Point.y h2
  have hx2 : qx = px := by omega
  have hy2 : qy = py := by omega
  rw [hx2, hy2]

/-- Once a candidate has been recorded (`0 ≤ acc.2`), the scan keeps a
non-negative distance that is at most the recorded one and at most the distance
of every scanned candidate; the result is either the accumulator it started
from or a scanned candidate together with its distance. -/
theorem scan_foldl_found (env : Env) (cur : Point) (cands : List Point) :
    ∀ acc : Point × Int, (0 : Int) ≤ acc.2 →
      (0 : Int) ≤ (cands.foldl (scanStep env cur) acc).2 ∧
      (cands.foldl (scanStep env cur) acc).2 ≤ acc.2 ∧
      (∀ c ∈ cands, (cands.foldl (scanStep env cur) acc).2 ≤ (env.getLength (cur - c) : Int)) ∧
      (cands.foldl (scanStep env cur) acc = acc ∨
        ((cands.foldl (scanStep env cur) acc).1 ∈ cands ∧
          (cands.foldl (scanStep env cur) acc).2 =
            (env.getLength (cur - (cands.foldl (scanStep env cur) acc).1) : Int))) := by
  induction cands with
  | nil =>
    intro acc h
    simp [h]
  | cons c cs ih =>
    intro acc h
    simp only [List.foldl_cons]
    by_cases hlt : (env.getLength (cur - c) : Int) < acc.2
    · have hstep : scanStep env cur acc c = (c, (env.getLength (cur - c) : Int)) := by
        simp [scanStep, hlt]
      rw [hstep]
      have hnn : (0 : Int) ≤ ((c, (env.getLength (cur - c) : Int)) : Point × Int).2 := by
        simp
      obtain ⟨h1, h2, h3, h4⟩ := ih (c, (env.getLength (cur - c) : Int)) hnn
      have h2 : (cs.foldl (scanStep env cur) (c, (env.getLength (cur - c) : Int))).2 ≤
          (env.getLength (cur - c) : Int) := h2
      refine ⟨h1, by omega, ?_, ?_⟩
      · intro c' hc'
        rcases List.mem_cons.mp hc' with rfl | hc'
        · exact h2
        · exact h3 c' hc'
      · right
        rcases h4 with h4 | ⟨h4, h5⟩
        · rw [h4]
          simp
        · exact ⟨List.mem_cons_of_mem _ h4, h5⟩
    · have hstep : scanStep env cur acc c = acc := by
        have : ¬ acc.2 < 0 := by omega
        simp [scanStep, hlt, this]
      rw [hstep]
      obtain ⟨h1, h2, h3, h4⟩ := ih acc h
      refine ⟨h1, h2, ?_, ?_⟩
      · intro c' hc'
        rcases List.mem_cons.mp hc' with rfl | hc'
        · omega
        · exact h3 c' hc'
      · rcases h4 with h4 | ⟨h4, h5⟩
        · exact Or.inl h4
        · exact Or.inr ⟨List.mem_cons_of_mem _ h4, h5⟩

/-- The scan over an empty candidate set leaves the initial `(Point(), -1)`. -/
theorem scanNearest_nil (env : Env) (cur : Point) :
    scanNearest env cur [] = (⟨0, 0⟩, -1) := rfl

/-- Over a non-empty candidate set the scan returns a candidate, its distance,
and that distance is minimal among all candidates. -/
theorem scanNearest_spec (env : Env) (cur : Point) (cands : List Point) (hne : cands ≠ []) :
    (scanNearest env cur cands).1 ∈ cands ∧
    (scanNearest env cur cands).2 = (env.getLength (cur - (scanNearest env cur cands).1) : Int) ∧
    ∀ c ∈ cands, (scanNearest env cur cands).2 ≤ (env.getLength (cur - c) : Int) := by
  cases cands with
  | nil => exact absurd rfl hne
  | cons c cs =>
    have hstep : scanStep env cur (⟨0, 0⟩, -1) c = (c, (env.getLength (cur - c) : Int)) := by
      simp [scanStep]
    have hnn : (0 : Int) ≤ ((c, (env.getLength (cur - c) : Int)) : Point × Int).2 := by
      simp
    obtain ⟨_, h2, h3, h4⟩ := scan_foldl_found env cur cs (c, (env.getLength (cur - c) : Int)) hnn
    have hfold : scanNearest env cur (c :: cs) =
        cs.foldl (scanStep env cur) (c, (env.getLength (cur - c) : Int)) := by
      simp [scanNearest, List.foldl_cons, hstep]
    rw [hfold]
    have h2 : (cs.foldl (scanStep env cur) (c, (env.getLength (cur - c) : Int))).2 ≤
        (env.getLength (cur - c) : Int) := h2
    refine ⟨?_, ?_, ?_⟩
    · rcases h4 with h4 | ⟨h4, _⟩
      · rw [h4]
        simp
      · exact List.mem_cons_of_mem _ h4
    · rcases h4 with h4 | ⟨_, h5⟩
      · rw [h4]
      · exact h5
    · intro c' hc'
      rcases List.mem_cons.mp hc' with rfl | hc'
      · exact h2
      · exact h3 c' hc'

/-- `updateRulerPositions` only writes to the view. -/
theorem updateRulerPositions_fields (env : Env) (t : MeasureTool) :
    (updateRulerPositions env t).mStartPos = t.mStartPos ∧
    (updateRulerPositions env t).mEndPos = t.mEndPos ∧
    (updateRulerPositions env t).mCursorPos = t.mCursorPos ∧
    (updateRulerPositions env t).mCursorSnapped = t.mCursorSnapped ∧
    (updateRulerPositions env t).mSnapCandidates = t.mSnapCandidates ∧
    (updateRulerPositions env t).mLastScenePos = t.mLastScenePos ∧
    (updateRulerPositions env t).clipboard = t.clipboard ∧
    (updateRulerPositions env t).statusBarMessages = t.statusBarMessages := by
  unfold updateRulerPositions
  cases t.mView <;> simp

/-- `updateStatusBarMessage` only emits a status bar message. -/
theorem updateStatusBarMessage_fields (env : Env) (t : MeasureTool) :
    (updateStatusBarMessage env t).mStartPos = t.mStartPos ∧
    (updateStatusBarMessage env t).mEndPos = t.mEndPos ∧
    (updateStatusBarMessage env t).mCursorPos = t.mCursorPos ∧
    (updateStatusBarMessage env t).mCursorSnapped = t.mCursorSnapped ∧
    (updateStatusBarMessage env t).mSnapCandidates = t.mSnapCandidates ∧
    (updateStatusBarMessage env t).mLastScenePos = t.mLastScenePos ∧
    (updateStatusBarMessage env t).clipboard = t.clipboard ∧
    (updateStatusBarMessage env t).mView = t.mView := by
  unfold updateStatusBarMessage MeasureTool.emitStatusBarMessage
  split_ifs <;> simp

/-- The cursor state computed by `updateCursorPosition` when a view is
attached, before the ruler is refreshed. -/
theorem updateCursorPosition_cursor (env : Env) (t : MeasureTool) (view : GraphicsView)
    (modifiers : Nat) (hview : t.mView = some view) :
    ((updateCursorPosition env t modifiers).mCursorPos,
      (updateCursorPosition env t modifiers).mCursorSnapped) =
    if testFlag modifiers ShiftModifier then (t.mLastScenePos, false)
    else if (0 : Int) ≤ (scanNearest env t.mLastScenePos t.mSnapCandidates).2 ∧
        (scanNearest env t.mLastScenePos t.mSnapCandidates).2 ≤
          (env.getLength
            (t.mLastScenePos - env.mappedToGrid t.mLastScenePos view.gridInterval) : Int) then
      ((scanNearest env t.mLastScenePos t.mSnapCandidates).1, true)
    else (env.mappedToGrid t.mLastScenePos view.gridInterval, false) := by
  unfold updateCursorPosition
  rw [hview]
  simp only [(updateRulerPositions_fields env _).2.2.1, (updateRulerPositions_fields env _).2.2.2.1]
  by_cases hs : testFlag modifiers ShiftModifier = true
  · simp [hs]
  · simp only [hs]
    split_ifs <;> simp_all

/-- `updateCursorPosition` never touches the session points. -/
theorem updateCursorPosition_session (env : Env) (t : MeasureTool) (modifiers : Nat) :
    (updateCursorPosition env t modifiers).mStartPos = t.mStartPos ∧
    (updateCursorPosition env t modifiers).mEndPos = t.mEndPos := by
  unfold updateCursorPosition
  cases t.mView with
  | none => simp
  | some view =>
    simp only [(updateRulerPositions_fields env _).1, (updateRulerPositions_fields env _).2.1]
    split_ifs <;> simp

theorem isqrtAux_pos (n : Nat) (hn : 1 ≤ n) : ∀ k : Nat, 1 ≤ k → 1 ≤ isqrtAux n k := by
  intro k
  induction k with
  | zero => intro h; omega
  | succ k ih =>
    intro _
    unfold isqrtAux
    split_ifs with hle
    · omega
    · cases k with
      | zero => simp at hle; omega
      | succ j => exact ih (by omega)

/-- The modelled Euclidean length vanishes exactly on the zero vector. -/
theorem euclideanLength_eq_zero_iff (p : Point) : euclideanLength p = 0 ↔ p = ⟨0, 0⟩ := by
  obtain ⟨x, y⟩ := p
  constructor
  · intro h
    unfold euclideanLength at h
    by_cases hm : x.natAbs * x.natAbs + y.natAbs * y.natAbs = 0
    · have hx : x.natAbs * x.natAbs = 0 := by omega
      have hy : y.natAbs * y.natAbs = 0 := by omega
      have hx0 : x = 0 := by
        rcases Nat.mul_eq_zero.mp hx with h1 | h1 <;> exact Int.natAbs_eq_zero.mp h1
      have hy0 : y = 0 := by
        rcases Nat.mul_eq_zero.mp hy with h1 | h1 <;> exact Int.natAbs_eq_zero.mp h1
      rw [hx0, hy0]
    · have hpos : 1 ≤ 4 * (x.natAbs * x.natAbs + y.natAbs * y.natAbs) := by omega
      have := isqrtAux_pos _ hpos _ hpos
      unfold isqrt at h
      simp only at h
      omega
  · intro h
    rw [h]
    decide


/-- The context setters only replace the candidate set. -/
theorem setters_session (env : Env) (t : MeasureTool) :
    (∀ x, (setSymbol env t x).mStartPos = t.mStartPos ∧
      (setSymbol env t x).mEndPos = t.mEndPos) ∧
    (∀ x, (setFootprint env t x).mStartPos = t.mStartPos ∧
      (setFootprint env t x).mEndPos = t.mEndPos) ∧
    (∀ x, (setSchematic env t x).mStartPos = t.mStartPos ∧
      (setSchematic env t x).mEndPos = t.mEndPos) ∧
    (∀ x, (setBoard env t x).mStartPos = t.mStartPos ∧
      (setBoard env t x).mEndPos = t.mEndPos) := by
  refine ⟨?_, ?_, ?_, ?_⟩ <;> intro x <;> cases x <;>
    simp [setSymbol, setFootprint, setSchematic, setBoard]

/-- Entering and leaving the tool keep the session points. -/
theorem enter_leave_session (env : Env) (t : MeasureTool) (globalPos : Point) :
    (enter env t globalPos).mStartPos = t.mStartPos ∧
    (enter env t globalPos).mEndPos = t.mEndPos ∧
    (leave t).mStartPos = t.mStartPos ∧ (leave t).mEndPos = t.mEndPos := by
  refine ⟨?_, ?_, ?_, ?_⟩
  · unfold enter
    simp only [(updateStatusBarMessage_fields env _).1, (updateCursorPosition_session env _ _).1]
    cases t.mView <;> simp
  · unfold enter
    simp only [(updateStatusBarMessage_fields env _).2.1,
      (updateCursorPosition_session env _ _).2]
    cases t.mView <;> simp
  · unfold leave MeasureTool.emitStatusBarMessage
    cases t.mView <;> simp
  · unfold leave MeasureTool.emitStatusBarMessage
    cases t.mView <;> simp

/-- Every event preserves the session invariant. -/
theorem applyEvent_preserves (env : Env) (t : MeasureTool) (ev : Event) (h : SessionInv t) :
    SessionInv (applyEvent env t ev) := by
  unfold SessionInv at h ⊢
  cases ev with
  | click e =>
    simp only [applyEvent, processGraphicsSceneLeftMouseButtonPressed,
      (updateStatusBarMessage_fields env _).1, (updateStatusBarMessage_fields env _).2.1,
      (updateRulerPositions_fields env _).1, (updateRulerPositions_fields env _).2.1]
    cases hs : t.mStartPos <;> cases he : t.mEndPos <;> simp
  | move e =>
    simp only [applyEvent, processGraphicsSceneMouseMoved,
      (updateCursorPosition_session env _ _).1, (updateCursorPosition_session env _ _).2]
    exact h
  | keyPressed e =>
    simp only [applyEvent, processKeyPressed]
    split_ifs
    · simp only [(updateCursorPosition_session env _ _).1,
        (updateCursorPosition_session env _ _).2]
      exact h
    · exact h
  | keyReleased e =>
    simp only [applyEvent, processKeyReleased]
    split_ifs
    · simp only [(updateCursorPosition_session env _ _).1,
        (updateCursorPosition_session env _ _).2]
      exact h
    · exact h
  | copy =>
    simp only [applyEvent, processCopy]
    split
    · simpa [MeasureTool.emitStatusBarMessage] using h
    · exact h
  | remove =>
    simp only [applyEvent, processRemove]
    split_ifs
    · simp [(updateStatusBarMessage_fields env _).2.1, (updateRulerPositions_fields env _).2.1]
    · exact h
  | abort =>
    simp only [applyEvent, processAbortCommand]
    split_ifs with hc
    · simp only [(updateStatusBarMessage_fields env _).2.1,
        (updateRulerPositions_fields env _).2.1]
      intro he
      simp only [Bool.and_eq_true] at hc
      rw [Option.isNone_iff_eq_none.mp hc.2] at he
      simp at he
    · exact h
  | enter globalPos =>
    simp only [applyEvent, (enter_leave_session env t globalPos).1,
      (enter_leave_session env t globalPos).2.1]
    exact h
  | leave =>
    simp only [applyEvent, (enter_leave_session env t ⟨0, 0⟩).2.2.1,
      (enter_leave_session env t ⟨0, 0⟩).2.2.2]
    exact h
  | setSymbol x =>
    simp only [applyEvent, ((setters_session env t).1 x).1, ((setters_session env t).1 x).2]
    exact h
  | setFootprint x =>
    simp only [applyEvent, ((setters_session env t).2.1 x).1,
      ((setters_session env t).2.1 x).2]
    exact h
  | setSchematic x =>
    simp only [applyEvent, ((setters_session env t).2.2.1 x).1,
      ((setters_session env t).2.2.1 x).2]
    exact h
  | setBoard x =>
    simp only [applyEvent, ((setters_session env t).2.2.2 x).1,
      ((setters_session env t).2.2.2 x).2]
    exact h

/-- A run of events preserves the session invariant. -/
theorem runEvents_preserves (env : Env) (events : List Event) :
    ∀ t : MeasureTool, SessionInv t → SessionInv (runEvents env t events) := by
  induction events with
  | nil => intro t h; exact h
  | cons ev evs ih =>
    intro t h
    exact ih _ (applyEvent_preserves env t ev h)


/-! ## Auxiliary facts about candidate sets -/

theorem QSet.nodup_insert (s : QSet) (q : Point) (h : s.Nodup) : (QSet.insert s q).Nodup := by
  unfold QSet.insert
  split
  · exact h
  · rename_i hq
    refine List.Nodup.append h (List.nodup_singleton q) ?_
    intro a ha hb
    rw [List.mem_singleton] at hb
    subst hb
    exact hq ha

theorem QSet.mem_unite (other : QSet) : ∀ (s : QSet) (p : Point),
    p ∈ QSet.unite s other ↔ p ∈ s ∨ p ∈ other := by
  induction other with
  | nil =>
    intro s p
    simp [QSet.unite]
  | cons q qs ih =>
    intro s p
    have h := ih (QSet.insert s q) p
    unfold QSet.unite at h ⊢
    rw [List.foldl_cons, h, QSet.mem_insert, List.mem_cons]
    tauto

theorem QSet.nodup_unite (other : QSet) : ∀ s : QSet, s.Nodup → (QSet.unite s other).Nodup := by
  induction other with
  | nil =>
    intro s h
    exact h
  | cons q qs ih =>
    intro s h
    exact ih (QSet.insert s q) (QSet.nodup_insert s q h)

/-- Membership after a loop whose body adds, for each element `a`, the points
satisfying `C a`. -/
theorem QSet.mem_foldl {α : Type} (f : QSet → α → QSet) (C : α → Point → Prop)
    (hf : ∀ (s : QSet) (a : α) (p : Point), p ∈ f s a ↔ p ∈ s ∨ C a p) (l : List α) :
    ∀ (s : QSet) (p : Point), p ∈ l.foldl f s ↔ p ∈ s ∨ ∃ a ∈ l, C a p := by
  induction l with
  | nil =>
    intro s p
    simp
  | cons a as ih =>
    intro s p
    rw [List.foldl_cons, ih, hf]
    constructor
    · rintro ((h | h) | ⟨b, hb, h⟩)
      · exact Or.inl h
      · exact Or.inr ⟨a, List.mem_cons_self _ _, h⟩
      · exact Or.inr ⟨b, List.mem_cons_of_mem _ hb, h⟩
    · rintro (h | ⟨b, hb, h⟩)
      · exact Or.inl (Or.inl h)
      · rcases List.mem_cons.mp hb with rfl | hb
        · exact Or.inl (Or.inr h)
        · exact Or.inr ⟨b, hb, h⟩

/-- A loop whose body keeps the set repetition-free keeps it repetition-free. -/
theorem QSet.nodup_foldl {α : Type} (f : QSet → α → QSet)
    (hf : ∀ (s : QSet) (a : α), s.Nodup → (f s a).Nodup) (l : List α) :
    ∀ s : QSet, s.Nodup → (l.foldl f s).Nodup := by
  induction l with
  | nil =>
    intro s h
    exact h
  | cons a as ih =>
    intro s h
    exact ih (f s a) (hf s a h)

theorem mem_snapCandidatesFromPath (path : Path) (p : Point) :
    p ∈ snapCandidatesFromPath path ↔ ∃ v ∈ path.vertices, p = v.pos := by
  unfold snapCandidatesFromPath
  rw [QSet.mem_foldl (fun (candidates : QSet) (v : Vertex) => QSet.insert candidates v.pos)
    (fun v p => p = v.pos) (fun s a p => QSet.mem_insert s a.pos p)]
  simp

theorem nodup_snapCandidatesFromPath (path : Path) : (snapCandidatesFromPath path).Nodup :=
  QSet.nodup_foldl (fun (candidates : QSet) (v : Vertex) => QSet.insert candidates v.pos)
    (fun s a h => QSet.nodup_insert s a.pos h) path.vertices [] List.nodup_nil

theorem nodup_snapCandidatesFromCircle (center : Point) (diameter : Int) :
    (snapCandidatesFromCircle center diameter).Nodup := by
  unfold snapCandidatesFromCircle
  exact QSet.nodup_insert _ _ (QSet.nodup_insert _ _ (QSet.nodup_insert _ _
    (QSet.nodup_insert _ _ (QSet.nodup_insert _ _ List.nodup_nil))))

theorem mem_snapCandidatesFromHole (mapPoint : Point → Point) (s : QSet) (h : Hole)
    (p : Point) :
    p ∈ snapCandidatesFromHole mapPoint s h ↔
      p ∈ s ∨ ∃ v ∈ h.path.vertices,
        p ∈ snapCandidatesFromCircle (mapPoint v.pos) (h.diameter : Int) := by
  unfold snapCandidatesFromHole
  exact QSet.mem_foldl _ (fun v p => p ∈ snapCandidatesFromCircle (mapPoint v.pos) (h.diameter : Int))
    (fun s a p => QSet.mem_unite _ s p) h.path.vertices s p

theorem nodup_snapCandidatesFromHole (mapPoint : Point → Point) (s : QSet) (h : Hole)
    (hs : s.Nodup) : (snapCandidatesFromHole mapPoint s h).Nodup := by
  unfold snapCandidatesFromHole
  exact QSet.nodup_foldl _ (fun s a hs => QSet.nodup_unite _ s hs) h.path.vertices s hs

theorem mem_snapCandidatesFromPath_map (f : Point → Point) (vs : List Vertex) (p : Point) :
    p ∈ snapCandidatesFromPath ⟨vs.map fun v => ⟨f v.pos, v.angle⟩⟩ ↔ ∃ v ∈ vs, p = f v.pos := by
  rw [mem_snapCandidatesFromPath]
  constructor
  · rintro ⟨v, hv, rfl⟩
    obtain ⟨w, hw, rfl⟩ := List.mem_map.mp hv
    exact ⟨w, hw, rfl⟩
  · rintro ⟨w, hw, rfl⟩
    exact ⟨⟨f w.pos, w.angle⟩, List.mem_map.mpr ⟨w, hw, rfl⟩, rfl⟩

theorem exists_mem_append_four {α : Type} (l : List α) (a b c d : α) (Q : α → Prop) :
    (∃ v ∈ l ++ [a, b, c, d], Q v) ↔ (∃ v ∈ l, Q v) ∨ Q a ∨ Q b ∨ Q c ∨ Q d := by
  constructor
  · rintro ⟨v, hv, hq⟩
    rcases List.mem_append.mp hv with h | h
    · exact Or.inl ⟨v, h, hq⟩
    · simp only [List.mem_cons, List.mem_singleton, List.not_mem_nil, or_false] at h
      rcases h with rfl | rfl | rfl | rfl
      · exact Or.inr (Or.inl hq)
      · exact Or.inr (Or.inr (Or.inl hq))
      · exact Or.inr (Or.inr (Or.inr (Or.inl hq)))
      · exact Or.inr (Or.inr (Or.inr (Or.inr hq)))
  · rintro (⟨v, hv, hq⟩ | hq | hq | hq | hq)
    · exact ⟨v, List.mem_append_left _ hv, hq⟩
    · exact ⟨a, List.mem_append_right _ (by simp), hq⟩
    · exact ⟨b, List.mem_append_right _ (by simp), hq⟩
    · exact ⟨c, List.mem_append_right _ (by simp), hq⟩
    · exact ⟨d, List.mem_append_right _ (by simp), hq⟩

/-- The path a pad hands to `snapCandidatesFromPath`: outline plus the four
reach points, each rotated, translated and mapped. -/
theorem padPath_eq (env : Env) (tr : Transform) (pad : FootprintPad) :
    Transform.mapPath env tr
      ((((((pad.outline.addVertex ⟨Length.div (pad.width : Int) 2, 0⟩).addVertex
        ⟨Length.div (-(pad.width : Int)) 2, 0⟩).addVertex
        ⟨0, Length.div (pad.height : Int) 2⟩).addVertex
        ⟨0, Length.div (-(pad.height : Int)) 2⟩).rotated env pad.rotation).translated
        pad.position) =
    ⟨(pad.outline.vertices ++
        ([⟨⟨Length.div (pad.width : Int) 2, 0⟩, 0⟩, ⟨⟨Length.div (-(pad.width : Int)) 2, 0⟩, 0⟩,
          ⟨⟨0, Length.div (pad.height : Int) 2⟩, 0⟩,
          ⟨⟨0, Length.div (-(pad.height : Int)) 2⟩, 0⟩] : List Vertex)).map
      fun (v : Vertex) =>
        (⟨env.transformMap tr (env.rotated v.pos pad.rotation + pad.position), v.angle⟩ :
          Vertex)⟩ := by
  simp [Transform.mapPath, Path.translated, Path.rotated, Path.addVertex, Function.comp_def]

/-- Membership after the loop body for one pad: the origin, the mapped outline
vertices, the four mapped reach points, and the drill circle when the pad has
a drill. -/
theorem mem_snapCandidatesFromPad (env : Env) (tr : Transform) (s : QSet) (pad : FootprintPad)
    (p : Point) :
    p ∈ snapCandidatesFromPad env tr s pad ↔
      p ∈ s ∨ p = env.transformMap tr pad.position ∨
      (∃ v ∈ pad.outline.vertices,
        p = env.transformMap tr (env.rotated v.pos pad.rotation + pad.position)) ∨
      p = env.transformMap tr
        (env.rotated ⟨Length.div (pad.width : Int) 2, 0⟩ pad.rotation + pad.position) ∨
      p = env.transformMap tr
        (env.rotated ⟨Length.div (-(pad.width : Int)) 2, 0⟩ pad.rotation + pad.position) ∨
      p = env.transformMap tr
        (env.rotated ⟨0, Length.div (pad.height : Int) 2⟩ pad.rotation + pad.position) ∨
      p = env.transformMap tr
        (env.rotated ⟨0, Length.div (-(pad.height : Int)) 2⟩ pad.rotation + pad.position) ∨
      (0 < pad.drillDiameter ∧
        p ∈ snapCandidatesFromCircle (env.transformMap tr pad.position)
          (pad.drillDiameter : Int)) := by
  unfold snapCandidatesFromPad
  simp only [padPath_eq]
  by_cases hd : pad.drillDiameter > 0
  · have hd0 : 0 < pad.drillDiameter := hd
    simp only [hd, if_true, QSet.mem_unite, QSet.mem_insert,
      mem_snapCandidatesFromPath_map
        (fun q => env.transformMap tr (env.rotated q pad.rotation + pad.position)),
      exists_mem_append_four]
    generalize (∃ v ∈ pad.outline.vertices,
      p = env.transformMap tr (env.rotated v.pos pad.rotation + pad.position)) = E
    tauto
  · have hd0 : ¬ 0 < pad.drillDiameter := hd
    simp only [hd, if_false, QSet.mem_unite, QSet.mem_insert,
      mem_snapCandidatesFromPath_map
        (fun q => env.transformMap tr (env.rotated q pad.rotation + pad.position)),
      exists_mem_append_four]
    generalize (∃ v ∈ pad.outline.vertices,
      p = env.transformMap tr (env.rotated v.pos pad.rotation + pad.position)) = E
    tauto

theorem nodup_snapCandidatesFromPad (env : Env) (tr : Transform) (s : QSet) (pad : FootprintPad)
    (hs : s.Nodup) : (snapCandidatesFromPad env tr s pad).Nodup := by
  unfold snapCandidatesFromPad
  simp only
  split
  · exact QSet.nodup_unite _ _ (QSet.nodup_unite _ _ (QSet.nodup_insert _ _ hs))
  · exact QSet.nodup_unite _ _ (QSet.nodup_insert _ _ hs)

theorem Point.add_comm (a b : Point) : a + b = b + a := by
  show (⟨a.x + b.x, a.y + b.y⟩ : Point) = ⟨b.x + a.x, b.y + a.y⟩
  rw [Int.add_comm a.x, Int.add_comm a.y]

/-- Membership in the candidates of a symbol: a pin origin or pin end, a polygon
vertex, a circle point, or a text anchor, each mapped. -/
theorem mem_snapCandidatesFromSymbol (env : Env) (symbol : Symbol) (tr : Transform)
    (p : Point) :
    p ∈ snapCandidatesFromSymbol env symbol tr ↔
      (∃ pin ∈ symbol.pins, p = env.transformMap tr pin.position ∨
        p = env.transformMap tr
          (pin.position + env.rotated ⟨(pin.length : Int), 0⟩ pin.rotation)) ∨
      (∃ poly ∈ symbol.polygons, ∃ v ∈ poly.path.vertices, p = env.transformMap tr v.pos) ∨
      (∃ c ∈ symbol.circles,
        p ∈ snapCandidatesFromCircle (env.transformMap tr c.center) (c.diameter : Int)) ∨
      (∃ x ∈ symbol.texts, p = env.transformMap tr x.position) := by
  have h1 : ∀ s : QSet, p ∈ symbol.pins.foldl (fun (candidates : QSet) (pin : SymbolPin) =>
      QSet.insert (QSet.insert candidates (env.transformMap tr pin.position))
        (env.transformMap tr
          (pin.position + env.rotated ⟨(pin.length : Int), 0⟩ pin.rotation))) s ↔
      p ∈ s ∨ ∃ pin ∈ symbol.pins, p = env.transformMap tr pin.position ∨
        p = env.transformMap tr
          (pin.position + env.rotated ⟨(pin.length : Int), 0⟩ pin.rotation) :=
    fun s => QSet.mem_foldl _ (fun (pin : SymbolPin) q => q = env.transformMap tr pin.position ∨
        q = env.transformMap tr
          (pin.position + env.rotated ⟨(pin.length : Int), 0⟩ pin.rotation))
      (fun s a q => by rw [QSet.mem_insert, QSet.mem_insert, or_assoc]) _ s p
  have h2 : ∀ s : QSet, p ∈ symbol.polygons.foldl (fun (candidates : QSet) (poly : Polygon) =>
      QSet.unite candidates (snapCandidatesFromPath (Transform.mapPath env tr poly.path))) s ↔
      p ∈ s ∨ ∃ poly ∈ symbol.polygons, ∃ v ∈ poly.path.vertices,
        p = env.transformMap tr v.pos :=
    fun s => QSet.mem_foldl _
      (fun (poly : Polygon) q => ∃ v ∈ poly.path.vertices, q = env.transformMap tr v.pos)
      (fun s a q => by
        rw [QSet.mem_unite, Transform.mapPath, mem_snapCandidatesFromPath_map]) _ s p
  have h3 : ∀ s : QSet, p ∈ symbol.circles.foldl (fun (candidates : QSet) (c : Circle) =>
      QSet.unite candidates
        (snapCandidatesFromCircle (env.transformMap tr c.center) (c.diameter : Int))) s ↔
      p ∈ s ∨ ∃ c ∈ symbol.circles,
        p ∈ snapCandidatesFromCircle (env.transformMap tr c.center) (c.diameter : Int) :=
    fun s => QSet.mem_foldl _
      (fun (c : Circle) q =>
        q ∈ snapCandidatesFromCircle (env.transformMap tr c.center) (c.diameter : Int))
      (fun s a q => QSet.mem_unite _ s q) _ s p
  have h4 : ∀ s : QSet, p ∈ symbol.texts.foldl (fun (candidates : QSet) (x : Text) =>
      QSet.insert candidates (env.transformMap tr x.position)) s ↔
      p ∈ s ∨ ∃ x ∈ symbol.texts, p = env.transformMap tr x.position :=
    fun s => QSet.mem_foldl _ (fun (x : Text) q => q = env.transformMap tr x.position)
      (fun s a q => QSet.mem_insert s _ q) _ s p
  unfold snapCandidatesFromSymbol
  simp only []
  rw [h4, h3, h2, h1]
  simp only [List.not_mem_nil, false_or, or_assoc]

theorem nodup_snapCandidatesFromSymbol (env : Env) (symbol : Symbol) (tr : Transform) :
    (snapCandidatesFromSymbol env symbol tr).Nodup := by
  unfold snapCandidatesFromSymbol
  simp only []
  refine QSet.nodup_foldl _ (fun s a h => QSet.nodup_insert _ _ h) _ _ ?_
  refine QSet.nodup_foldl _ (fun s a h => QSet.nodup_unite _ _ h) _ _ ?_
  refine QSet.nodup_foldl _ (fun s a h => QSet.nodup_unite _ _ h) _ _ ?_
  exact QSet.nodup_foldl _ (fun s a h => QSet.nodup_insert _ _ (QSet.nodup_insert _ _ h)) _ _
    List.nodup_nil

/-- Membership in the candidates of a footprint: a point contributed by a pad,
a polygon vertex, a circle point, a stroke text anchor, or a circle point at a
hole vertex, each mapped. -/
theorem mem_snapCandidatesFromFootprint (env : Env) (footprint : Footprint) (tr : Transform)
    (p : Point) :
    p ∈ snapCandidatesFromFootprint env footprint tr ↔
      (∃ pad ∈ footprint.pads, p ∈ snapCandidatesFromPad env tr [] pad) ∨
      (∃ poly ∈ footprint.polygons, ∃ v ∈ poly.path.vertices,
        p = env.transformMap tr v.pos) ∨
      (∃ c ∈ footprint.circles,
        p ∈ snapCandidatesFromCircle (env.transformMap tr c.center) (c.diameter : Int)) ∨
      (∃ x ∈ footprint.strokeTexts, p = env.transformMap tr x.position) ∨
      (∃ h ∈ footprint.holes, ∃ v ∈ h.path.vertices,
        p ∈ snapCandidatesFromCircle (env.transformMap tr v.pos) (h.diameter : Int)) := by
  have h1 : ∀ s : QSet, p ∈ footprint.pads.foldl (snapCandidatesFromPad env tr) s ↔
      p ∈ s ∨ ∃ pad ∈ footprint.pads, p ∈ snapCandidatesFromPad env tr [] pad :=
    fun s => QSet.mem_foldl _ (fun (pad : FootprintPad) q => q ∈ snapCandidatesFromPad env tr [] pad)
      (fun s a q => by
        show q ∈ snapCandidatesFromPad env tr s a ↔ q ∈ s ∨ q ∈ snapCandidatesFromPad env tr [] a
        rw [mem_snapCandidatesFromPad env tr s, mem_snapCandidatesFromPad env tr []]
        simp only [List.not_mem_nil, false_or]) _ s p
  have h2 : ∀ s : QSet, p ∈ footprint.polygons.foldl (fun (candidates : QSet) (poly : Polygon) =>
      QSet.unite candidates (snapCandidatesFromPath (Transform.mapPath env tr poly.path))) s ↔
      p ∈ s ∨ ∃ poly ∈ footprint.polygons, ∃ v ∈ poly.path.vertices,
        p = env.transformMap tr v.pos :=
    fun s => QSet.mem_foldl _
      (fun (poly : Polygon) q => ∃ v ∈ poly.path.vertices, q = env.transformMap tr v.pos)
      (fun s a q => by
        rw [QSet.mem_unite, Transform.mapPath, mem_snapCandidatesFromPath_map]) _ s p
  have h3 : ∀ s : QSet, p ∈ footprint.circles.foldl (fun (candidates : QSet) (c : Circle) =>
      QSet.unite candidates
        (snapCandidatesFromCircle (env.transformMap tr c.center) (c.diameter : Int))) s ↔
      p ∈ s ∨ ∃ c ∈ footprint.circles,
        p ∈ snapCandidatesFromCircle (env.transformMap tr c.center) (c.diameter : Int) :=
    fun s => QSet.mem_foldl _
      (fun (c : Circle) q =>
        q ∈ snapCandidatesFromCircle (env.transformMap tr c.center) (c.diameter : Int))
      (fun s a q => QSet.mem_unite _ s q) _ s p
  have h4 : ∀ s : QSet, p ∈ footprint.strokeTexts.foldl
      (fun (candidates : QSet) (x : StrokeText) =>
        QSet.insert candidates (env.transformMap tr x.position)) s ↔
      p ∈ s ∨ ∃ x ∈ footprint.strokeTexts, p = env.transformMap tr x.position :=
    fun s => QSet.mem_foldl _ (fun (x : StrokeText) q => q = env.transformMap tr x.position)
      (fun s a q => QSet.mem_insert s _ q) _ s p
  have h5 : ∀ s : QSet, p ∈ footprint.holes.foldl
      (snapCandidatesFromHole (env.transformMap tr)) s ↔
      p ∈ s ∨ ∃ h ∈ footprint.holes, ∃ v ∈ h.path.vertices,
        p ∈ snapCandidatesFromCircle (env.transformMap tr v.pos) (h.diameter : Int) :=
    fun s => QSet.mem_foldl _
      (fun (h : Hole) q => ∃ v ∈ h.path.vertices,
        q ∈ snapCandidatesFromCircle (env.transformMap tr v.pos) (h.diameter : Int))
      (fun s a q => mem_snapCandidatesFromHole _ s a q) _ s p
  unfold snapCandidatesFromFootprint
  simp only []
  rw [h5, h4, h3, h2, h1]
  simp only [List.not_mem_nil, false_or, or_assoc]

theorem nodup_snapCandidatesFromFootprint (env : Env) (footprint : Footprint)
    (tr : Transform) : (snapCandidatesFromFootprint env footprint tr).Nodup := by
  unfold snapCandidatesFromFootprint
  simp only []
  refine QSet.nodup_foldl _ (fun s a h => nodup_snapCandidatesFromHole _ s a h) _ _ ?_
  refine QSet.nodup_foldl _ (fun s a h => QSet.nodup_insert _ _ h) _ _ ?_
  refine QSet.nodup_foldl _ (fun s a h => QSet.nodup_unite _ _ h) _ _ ?_
  refine QSet.nodup_foldl _ (fun s a h => QSet.nodup_unite _ _ h) _ _ ?_
  exact QSet.nodup_foldl _ (fun s a h => nodup_snapCandidatesFromPad env tr s a h) _ _
    List.nodup_nil

/-- The path a via hands to `snapCandidatesFromPath`: outline plus the four
cardinal points, translated to the via position. -/
theorem viaPath_eq (via : BI_Via) :
    (((((via.outline.addVertex ⟨Length.div (via.size : Int) 2, 0⟩).addVertex
        ⟨Length.div (-(via.size : Int)) 2, 0⟩).addVertex
        ⟨0, Length.div (via.size : Int) 2⟩).addVertex
        ⟨0, Length.div (-(via.size : Int)) 2⟩).translated via.position) =
    ⟨(via.outline.vertices ++
        ([⟨⟨Length.div (via.size : Int) 2, 0⟩, 0⟩, ⟨⟨Length.div (-(via.size : Int)) 2, 0⟩, 0⟩,
          ⟨⟨0, Length.div (via.size : Int) 2⟩, 0⟩,
          ⟨⟨0, Length.div (-(via.size : Int)) 2⟩, 0⟩] : List Vertex)).map
      fun (v : Vertex) => (⟨v.pos + via.position, v.angle⟩ : Vertex)⟩ := by
  simp [Path.translated, Path.addVertex]

/-- Membership after the loop body for one via: its position, the translated
outline vertices, the four translated cardinal points, and the drill circle. -/
theorem mem_snapCandidatesFromVia (s : QSet) (via : BI_Via) (p : Point) :
    p ∈ snapCandidatesFromVia s via ↔
      p ∈ s ∨ p = via.position ∨
      (∃ v ∈ via.outline.vertices, p = v.pos + via.position) ∨
      p = (⟨Length.div (via.size : Int) 2, 0⟩ : Point) + via.position ∨
      p = (⟨Length.div (-(via.size : Int)) 2, 0⟩ : Point) + via.position ∨
      p = (⟨0, Length.div (via.size : Int) 2⟩ : Point) + via.position ∨
      p = (⟨0, Length.div (-(via.size : Int)) 2⟩ : Point) + via.position ∨
      p ∈ snapCandidatesFromCircle via.position (via.drillDiameter : Int) := by
  unfold snapCandidatesFromVia
  simp only [viaPath_eq, QSet.mem_unite, QSet.mem_insert,
    mem_snapCandidatesFromPath_map (fun q => q + via.position), exists_mem_append_four]
  generalize (∃ v ∈ via.outline.vertices, p = v.pos + via.position) = E
  tauto

theorem mem_snapCandidatesFromVia_iff (s : QSet) (via : BI_Via) (p : Point) :
    p ∈ snapCandidatesFromVia s via ↔ p ∈ s ∨ p ∈ snapCandidatesFromVia [] via := by
  rw [mem_snapCandidatesFromVia s, mem_snapCandidatesFromVia []]
  simp only [List.not_mem_nil, false_or]

/-- Membership in the candidates `setBoard` collects. -/
theorem mem_snapCandidatesFromBoard (env : Env) (board : Board) (p : Point) :
    p ∈ snapCandidatesFromBoard env board ↔
      (∃ device ∈ board.deviceInstances, p = device.position ∨
        p ∈ snapCandidatesFromFootprint env device.libFootprint (Transform.ofDevice device)) ∨
      (∃ segment ∈ board.netSegments, p ∈ segment.netPoints ∨
        ∃ via ∈ segment.vias, p ∈ snapCandidatesFromVia [] via) ∨
      (∃ plane ∈ board.planes, p ∈ snapCandidatesFromPath plane.outline ∨
        ∃ fragment ∈ plane.fragments, p ∈ snapCandidatesFromPath fragment) ∨
      (∃ polygon ∈ board.polygons, p ∈ snapCandidatesFromPath polygon.path) ∨
      (∃ text ∈ board.strokeTexts, p = text.position) ∨
      (∃ h ∈ board.holes, ∃ v ∈ h.path.vertices,
        p ∈ snapCandidatesFromCircle v.pos (h.diameter : Int)) := by
  have h1 : ∀ s : QSet, p ∈ board.deviceInstances.foldl
      (fun (candidates : QSet) (device : BI_Device) =>
        QSet.unite (QSet.insert candidates device.position)
          (snapCandidatesFromFootprint env device.libFootprint (Transform.ofDevice device))) s ↔
      p ∈ s ∨ ∃ device ∈ board.deviceInstances, p = device.position ∨
        p ∈ snapCandidatesFromFootprint env device.libFootprint (Transform.ofDevice device) :=
    fun s => QSet.mem_foldl _
      (fun (device : BI_Device) q => q = device.position ∨
        q ∈ snapCandidatesFromFootprint env device.libFootprint (Transform.ofDevice device))
      (fun s a q => by rw [QSet.mem_unite, QSet.mem_insert, or_assoc]) _ s p
  have h2 : ∀ s : QSet, p ∈ board.netSegments.foldl
      (fun (candidates : QSet) (segment : BI_NetSegment) =>
        segment.vias.foldl snapCandidatesFromVia
          (segment.netPoints.foldl QSet.insert candidates)) s ↔
      p ∈ s ∨ ∃ segment ∈ board.netSegments, p ∈ segment.netPoints ∨
        ∃ via ∈ segment.vias, p ∈ snapCandidatesFromVia [] via :=
    fun s => QSet.mem_foldl _
      (fun (segment : BI_NetSegment) q => q ∈ segment.netPoints ∨
        ∃ via ∈ segment.vias, q ∈ snapCandidatesFromVia [] via)
      (fun s a q => by
        rw [QSet.mem_foldl snapCandidatesFromVia
            (fun (via : BI_Via) q => q ∈ snapCandidatesFromVia [] via)
            (fun s a q => mem_snapCandidatesFromVia_iff s a q),
          QSet.mem_foldl QSet.insert (fun (x : Point) q => q = x)
            (fun s a q => QSet.mem_insert s a q)]
        simp only [exists_eq_right', or_assoc]) _ s p
  have h3 : ∀ s : QSet, p ∈ board.planes.foldl
      (fun (candidates : QSet) (plane : BI_Plane) =>
        plane.fragments.foldl (fun (candidates : QSet) (fragment : Path) =>
          QSet.unite candidates (snapCandidatesFromPath fragment))
          (QSet.unite candidates (snapCandidatesFromPath plane.outline))) s ↔
      p ∈ s ∨ ∃ plane ∈ board.planes, p ∈ snapCandidatesFromPath plane.outline ∨
        ∃ fragment ∈ plane.fragments, p ∈ snapCandidatesFromPath fragment :=
    fun s => QSet.mem_foldl _
      (fun (plane : BI_Plane) q => q ∈ snapCandidatesFromPath plane.outline ∨
        ∃ fragment ∈ plane.fragments, q ∈ snapCandidatesFromPath fragment)
      (fun s a q => by
        rw [QSet.mem_foldl (fun (candidates : QSet) (fragment : Path) =>
              QSet.unite candidates (snapCandidatesFromPath fragment))
            (fun (fragment : Path) q => q ∈ snapCandidatesFromPath fragment)
            (fun s a q => QSet.mem_unite _ s q),
          QSet.mem_unite, or_assoc]) _ s p
  have h4 : ∀ s : QSet, p ∈ board.polygons.foldl
      (fun (candidates : QSet) (polygon : Polygon) =>
        QSet.unite candidates (snapCandidatesFromPath polygon.path)) s ↔
      p ∈ s ∨ ∃ polygon ∈ board.polygons, p ∈ snapCandidatesFromPath polygon.path :=
    fun s => QSet.mem_foldl _
      (fun (polygon : Polygon) q => q ∈ snapCandidatesFromPath polygon.path)
      (fun s a q => QSet.mem_unite _ s q) _ s p
  have h5 : ∀ s : QSet, p ∈ board.strokeTexts.foldl
      (fun (candidates : QSet) (text : StrokeText) => QSet.insert candidates text.position) s ↔
      p ∈ s ∨ ∃ text ∈ board.strokeTexts, p = text.position :=
    fun s => QSet.mem_foldl _ (fun (text : StrokeText) q => q = text.position)
      (fun s a q => QSet.mem_insert s _ q) _ s p
  have h6 : ∀ s : QSet, p ∈ board.holes.foldl (snapCandidatesFromHole id) s ↔
      p ∈ s ∨ ∃ h ∈ board.holes, ∃ v ∈ h.path.vertices,
        p ∈ snapCandidatesFromCircle v.pos (h.diameter : Int) :=
    fun s => QSet.mem_foldl _
      (fun (h : Hole) q => ∃ v ∈ h.path.vertices,
        q ∈ snapCandidatesFromCircle v.pos (h.diameter : Int))
      (fun s a q => mem_snapCandidatesFromHole id s a q) _ s p
  unfold snapCandidatesFromBoard
  simp only []
  rw [h6, h5, h4, h3, h2, h1]
  simp only [List.not_mem_nil, false_or, or_assoc]

/-- With a view attached and both points set, `updateRulerPositions` hands the
view the ruler (start, end). -/
theorem updateRulerPositions_complete (env : Env) (t : MeasureTool) (view : GraphicsView)
    (startPos endPos : Point) (hview : t.mView = some view) (hs : t.mStartPos = some startPos)
    (he : t.mEndPos = some endPos) :
    Option.map GraphicsView.rulerPositions (updateRulerPositions env t).mView =
      some (some (startPos, endPos)) := by
  simp [updateRulerPositions, hview, hs, he]

theorem updateCursorPosition_complete (env : Env) (t : MeasureTool) (view : GraphicsView)
    (modifiers : Nat) (startPos endPos : Point) (hview : t.mView = some view)
    (hs : t.mStartPos = some startPos) (he : t.mEndPos = some endPos) :
    Option.map GraphicsView.rulerPositions (updateCursorPosition env t modifiers).mView =
      some (some (startPos, endPos)) := by
  unfold updateCursorPosition
  rw [hview]
  simp only []
  split_ifs <;> exact updateRulerPositions_complete env _ view startPos endPos rfl hs he

theorem enter_complete (env : Env) (t : MeasureTool) (view : GraphicsView)
    (globalPos startPos endPos : Point) (hview : t.mView = some view)
    (hs : t.mStartPos = some startPos) (he : t.mEndPos = some endPos) :
    Option.map GraphicsView.rulerPositions (enter env t globalPos).mView =
      some (some (startPos, endPos)) := by
  unfold enter
  simp only []
  rw [(updateStatusBarMessage_fields env _).2.2.2.2.2.2.2, hview]
  exact updateCursorPosition_complete env _ _ 0 startPos endPos rfl hs he

theorem Point.sub_x_offset (P : Point) (d : Int) :
    P - ⟨Length.div d 2, 0⟩ = (⟨Length.div (-d) 2, 0⟩ : Point) + P := by
  show (⟨P.x - Length.div d 2, P.y - 0⟩ : Point) = ⟨Length.div (-d) 2 + P.x, 0 + P.y⟩
  have h : Length.div (-d) 2 = -(Length.div d 2) := Int.neg_tdiv d 2
  rw [h]
  congr 1 <;> omega

theorem Point.sub_y_offset (P : Point) (d : Int) :
    P - ⟨0, Length.div d 2⟩ = (⟨0, Length.div (-d) 2⟩ : Point) + P := by
  show (⟨P.x - 0, P.y - Length.div d 2⟩ : Point) = ⟨0 + P.x, Length.div (-d) 2 + P.y⟩
  have h : Length.div (-d) 2 = -(Length.div d 2) := Int.neg_tdiv d 2
  rw [h]
  congr 1 <;> omega

theorem stdEnv_rotated_zero (q : Point) : stdEnv.rotated q 0 = q := by
  show rotatedExact q 0 = q
  simp [rotatedExact]

theorem stdEnv_transformMap_identity (q : Point) :
    stdEnv.transformMap Transform.identity q = q := by
  show placementMap Transform.identity q = q
  simp only [placementMap, Transform.identity, rotatedExact]
  show (⟨q.x + 0, q.y + 0⟩ : Point) = q
  simp

theorem perm_exists_congr {α : Type} {l1 l2 : List α} (h : List.Perm l1 l2) (C : α → Prop) :
    (∃ a ∈ l1, C a) ↔ ∃ b ∈ l2, C b := by
  constructor
  · rintro ⟨a, ha, hc⟩
    exact ⟨a, h.mem_iff.mp ha, hc⟩
  · rintro ⟨a, ha, hc⟩
    exact ⟨a, h.mem_iff.mpr ha, hc⟩

theorem forall₂_exists_congr {α : Type} {R : α → α → Prop} (C : α → Prop)
    (hR : ∀ a b : α, R a b → (C a ↔ C b)) {l1 l2 : List α} (h : List.Forall₂ R l1 l2) :
    (∃ a ∈ l1, C a) ↔ ∃ b ∈ l2, C b := by
  induction h with
  | nil => simp
  | @cons a b as bs hab _ ih =>
    constructor
    · rintro ⟨x, hx, hc⟩
      rcases List.mem_cons.mp hx with rfl | hx
      · exact ⟨b, List.mem_cons_self _ _, (hR _ _ hab).mp hc⟩
      · obtain ⟨y, hy, hcy⟩ := ih.mp ⟨x, hx, hc⟩
        exact ⟨y, List.mem_cons_of_mem _ hy, hcy⟩
    · rintro ⟨x, hx, hc⟩
      rcases List.mem_cons.mp hx with rfl | hx
      · exact ⟨a, List.mem_cons_self _ _, (hR _ _ hab).mpr hc⟩
      · obtain ⟨y, hy, hcy⟩ := ih.mpr ⟨x, hx, hc⟩
        exact ⟨y, List.mem_cons_of_mem _ hy, hcy⟩

/-- Re-ordered lists contribute the same points when related elements do. -/
theorem reordered_exists_congr {α : Type} {R : α → α → Prop} (C : α → Prop)
    (hR : ∀ a b : α, R a b → (C a ↔ C b)) {l1 l2 : List α} (h : Reordered R l1 l2) :
    (∃ a ∈ l1, C a) ↔ ∃ b ∈ l2, C b := by
  obtain ⟨mid, hp, hf⟩ := h
  exact (perm_exists_congr hp C).trans (forall₂_exists_congr C hR hf)

theorem polygon_permuted_congr (f : Point → Point) (p : Point) (a b : Polygon)
    (h : Polygon.Permuted a b) :
    (∃ v ∈ a.path.vertices, p = f v.pos) ↔ ∃ v ∈ b.path.vertices, p = f v.pos :=
  perm_exists_congr h fun v => p = f v.pos

theorem hole_permuted_congr (f : Point → Point) (p : Point) (a b : Hole)
    (h : Hole.Permuted a b) :
    (∃ v ∈ a.path.vertices, p ∈ snapCandidatesFromCircle (f v.pos) (a.diameter : Int)) ↔
      ∃ v ∈ b.path.vertices, p ∈ snapCandidatesFromCircle (f v.pos) (b.diameter : Int) := by
  obtain ⟨hd, hp⟩ := h
  rw [hd]
  exact perm_exists_congr hp fun v => p ∈ snapCandidatesFromCircle (f v.pos) (b.diameter : Int)

theorem pad_permuted_congr (env : Env) (tr : Transform) (p : Point) (a b : FootprintPad)
    (h : FootprintPad.Permuted a b) :
    p ∈ snapCandidatesFromPad env tr [] a ↔ p ∈ snapCandidatesFromPad env tr [] b := by
  obtain ⟨h1, h2, h3, h4, h5, h6⟩ := h
  rw [mem_snapCandidatesFromPad, mem_snapCandidatesFromPad, h1, h2, h3, h4, h5,
    perm_exists_congr h6
      fun v => p = env.transformMap tr (env.rotated v.pos b.rotation + b.position)]

/-- Once a candidate is recorded, scanning candidates that are not strictly
nearer leaves the recorded one in place. -/
theorem scan_foldl_keep (env : Env) (cur : Point) (cands : List Point) :
    ∀ acc : Point × Int, (0 : Int) ≤ acc.2 →
      (∀ d ∈ cands, acc.2 ≤ (env.getLength (cur - d) : Int)) →
      cands.foldl (scanStep env cur) acc = acc := by
  induction cands with
  | nil =>
    intro acc _ _
    rfl
  | cons c cs ih =>
    intro acc h0 hall
    have hc := hall c (List.mem_cons_self _ _)
    have hstep : scanStep env cur acc c = acc := by
      have h1 : ¬ acc.2 < 0 := by omega
      have h2 : ¬ (env.getLength (cur - c) : Int) < acc.2 := by omega
      simp [scanStep, h1, h2]
    rw [List.foldl_cons, hstep]
    exact ih acc h0 fun d hd => hall d (List.mem_cons_of_mem _ hd)

/-- The scan returns the first candidate of minimal distance: every candidate
before it is strictly farther, every candidate after it is at least as far. -/
theorem scanNearest_first_minimum (env : Env) (cur : Point) (pre post : List Point) (c : Point)
    (hpre : ∀ d ∈ pre, env.getLength (cur - c) < env.getLength (cur - d))
    (hpost : ∀ d ∈ post, env.getLength (cur - c) ≤ env.getLength (cur - d)) :
    scanNearest env cur (pre ++ c :: post) = (c, (env.getLength (cur - c) : Int)) := by
  unfold scanNearest
  rw [List.foldl_append, List.foldl_cons]
  have hstep : scanStep env cur (pre.foldl (scanStep env cur) (⟨0, 0⟩, -1)) c =
      (c, (env.getLength (cur - c) : Int)) := by
    by_cases hne : pre = []
    · rw [hne]
      simp [scanStep]
    · obtain ⟨hm, hd, _⟩ := scanNearest_spec env cur pre hne
      unfold scanNearest at hm hd
      have hlt := hpre _ hm
      have hcond : (env.getLength (cur - c) : Int) <
          (pre.foldl (scanStep env cur) (⟨0, 0⟩, -1)).2 := by
        rw [hd]
        exact Int.ofNat_lt.mpr hlt
      simp [scanStep, hcond]
  rw [hstep]
  refine scan_foldl_keep env cur post _ (by simp) ?_
  intro d hd
  exact Int.ofNat_le.mpr (hpost d hd)

theorem Point.add_mk (a b c d : Int) : (⟨a, b⟩ : Point) + ⟨c, d⟩ = ⟨a + c, b + d⟩ := rfl

theorem padKeysLoop_eq_true (keys : List QUuid) :
    padKeysLoop keys = true ↔ ∀ k ∈ keys, k.isNull = false := by
  induction keys with
  | nil => simp [padKeysLoop]
  | cons k ks ih =>
    unfold padKeysLoop
    cases hk : k.isNull
    · simp [ih, hk]
    · simp [hk]

/-! ## The snap decision -/

/-- C1: with a view attached and Shift not held, `updateCursorPosition` reports
`snapped = true` exactly when the candidate set is non-empty and its smallest
distance to the raw position is at most the distance from the raw position to
its grid-rounded position (a tie goes to the candidate). -/
theorem updateCursorPosition_snapped_iff (env : Env) (t : MeasureTool) (view : GraphicsView)
    (modifiers : Nat) (hview : t.mView = some view)
    (hshift : testFlag modifiers ShiftModifier = false) :
    (updateCursorPosition env t modifiers).mCursorSnapped = true ↔
      ∃ c ∈ t.mSnapCandidates,
        (∀ d ∈ t.mSnapCandidates,
          env.getLength (t.mLastScenePos - c) ≤ env.getLength (t.mLastScenePos - d)) ∧
        env.getLength (t.mLastScenePos - c) ≤
          env.getLength (t.mLastScenePos - env.mappedToGrid t.mLastScenePos view.gridInterval) := by
  have h := updateCursorPosition_cursor env t view modifiers hview
  rw [hshift, if_neg (by simp)] at h
  by_cases hne : t.mSnapCandidates = []
  · have hcond : ¬ ((0 : Int) ≤ ((⟨0, 0⟩, -1) : Point × Int).2 ∧
        ((⟨0, 0⟩, -1) : Point × Int).2 ≤
          (env.getLength
            (t.mLastScenePos - env.mappedToGrid t.mLastScenePos view.gridInterval) : Int)) := by
      simp
    rw [hne, scanNearest_nil, if_neg hcond] at h
    rw [show (updateCursorPosition env t modifiers).mCursorSnapped = _ from congrArg Prod.snd h,
      hne]
    simp
  · obtain ⟨hm, hd, hmin⟩ := scanNearest_spec env t.mLastScenePos t.mSnapCandidates hne
    by_cases hcond : (0 : Int) ≤ (scanNearest env t.mLastScenePos t.mSnapCandidates).2 ∧
        (scanNearest env t.mLastScenePos t.mSnapCandidates).2 ≤
          (env.getLength
            (t.mLastScenePos - env.mappedToGrid t.mLastScenePos view.gridInterval) : Int)
    · rw [if_pos hcond] at h
      rw [show (updateCursorPosition env t modifiers).mCursorSnapped = _ from congrArg Prod.snd h]
      refine ⟨fun _ => ⟨_, hm, ?_, ?_⟩, fun _ => rfl⟩
      · intro d hdm
        have := hmin d hdm
        omega
      · omega
    · rw [if_neg hcond] at h
      rw [show (updateCursorPosition env t modifiers).mCursorSnapped = _ from congrArg Prod.snd h]
      refine ⟨fun hf => absurd hf (by simp), ?_⟩
      rintro ⟨c, hc, _, hle⟩
      have := hmin c hc
      exact absurd ⟨by omega, by omega⟩ hcond

/-- Witness for C1: raw position (14,0) on a grid of 10, candidates (14,4) and
(0,0); the candidate (14,4) is exactly as far away as the grid point (10,0). -/
theorem updateCursorPosition_snapped_iff_witness :
    (updateCursorPosition stdEnv (sampleTool ⟨14, 0⟩ [⟨14, 4⟩, ⟨0, 0⟩] none none) 0).mCursorSnapped
        = true ↔
      ∃ c ∈ (sampleTool ⟨14, 0⟩ [⟨14, 4⟩, ⟨0, 0⟩] none none).mSnapCandidates,
        (∀ d ∈ (sampleTool ⟨14, 0⟩ [⟨14, 4⟩, ⟨0, 0⟩] none none).mSnapCandidates,
          stdEnv.getLength ((sampleTool ⟨14, 0⟩ [⟨14, 4⟩, ⟨0, 0⟩] none none).mLastScenePos - c) ≤
            stdEnv.getLength
              ((sampleTool ⟨14, 0⟩ [⟨14, 4⟩, ⟨0, 0⟩] none none).mLastScenePos - d)) ∧
        stdEnv.getLength ((sampleTool ⟨14, 0⟩ [⟨14, 4⟩, ⟨0, 0⟩] none none).mLastScenePos - c) ≤
          stdEnv.getLength ((sampleTool ⟨14, 0⟩ [⟨14, 4⟩, ⟨0, 0⟩] none none).mLastScenePos -
            stdEnv.mappedToGrid (sampleTool ⟨14, 0⟩ [⟨14, 4⟩, ⟨0, 0⟩] none none).mLastScenePos
              sampleView.gridInterval) :=
  updateCursorPosition_snapped_iff stdEnv (sampleTool ⟨14, 0⟩ [⟨14, 4⟩, ⟨0, 0⟩] none none)
    sampleView 0 rfl (by decide)

/-- C5: with a view attached and Shift not held, if the raw pointer position is
itself a candidate then `updateCursorPosition` snaps, and the cursor lands on
that candidate. The length function is assumed to vanish exactly on the zero
vector. -/
theorem updateCursorPosition_exact_candidate (env : Env) (t : MeasureTool) (view : GraphicsView)
    (modifiers : Nat) (hview : t.mView = some view)
    (hshift : testFlag modifiers ShiftModifier = false)
    (hzero : ∀ p : Point, env.getLength p = 0 ↔ p = ⟨0, 0⟩)
    (hmem : t.mLastScenePos ∈ t.mSnapCandidates) :
    (updateCursorPosition env t modifiers).mCursorSnapped = true ∧
    (updateCursorPosition env t modifiers).mCursorPos = t.mLastScenePos := by
  have h := updateCursorPosition_cursor env t view modifiers hview
  rw [hshift] at h
  have hne : t.mSnapCandidates ≠ [] := List.ne_nil_of_mem hmem
  obtain ⟨_, hd, hmin⟩ := scanNearest_spec env t.mLastScenePos t.mSnapCandidates hne
  have h0 : env.getLength (t.mLastScenePos - t.mLastScenePos) = 0 := by
    rw [Point.sub_self]
    exact (hzero _).mpr rfl
  have hle := hmin _ hmem
  have hd0 : env.getLength
      (t.mLastScenePos - (scanNearest env t.mLastScenePos t.mSnapCandidates).1) = 0 := by
    omega
  have hpos : (scanNearest env t.mLastScenePos t.mSnapCandidates).1 = t.mLastScenePos :=
    Point.eq_of_sub_eq_zero _ _ ((hzero _).mp hd0)
  have hcond : (0 : Int) ≤ (scanNearest env t.mLastScenePos t.mSnapCandidates).2 ∧
      (scanNearest env t.mLastScenePos t.mSnapCandidates).2 ≤
        (env.getLength
          (t.mLastScenePos - env.mappedToGrid t.mLastScenePos view.gridInterval) : Int) := by
    constructor <;> omega
  rw [if_neg (by simp), if_pos hcond, hpos] at h
  exact ⟨congrArg Prod.snd h, congrArg Prod.fst h⟩

/-- Witness for C5: the raw position (14,3) is itself a candidate; the grid
point (10,0) and the other candidate are farther away. -/
theorem updateCursorPosition_exact_candidate_witness :
    (updateCursorPosition stdEnv (sampleTool ⟨14, 3⟩ [⟨15, 3⟩, ⟨14, 3⟩] none none)
        0).mCursorSnapped = true ∧
    (updateCursorPosition stdEnv (sampleTool ⟨14, 3⟩ [⟨15, 3⟩, ⟨14, 3⟩] none none)
        0).mCursorPos = (sampleTool ⟨14, 3⟩ [⟨15, 3⟩, ⟨14, 3⟩] none none).mLastScenePos :=
  updateCursorPosition_exact_candidate stdEnv (sampleTool ⟨14, 3⟩ [⟨15, 3⟩, ⟨14, 3⟩] none none)
    sampleView 0 rfl (by decide) euclideanLength_eq_zero_iff (by decide)

/-- C6: with a view attached, Shift not held and no candidates,
`updateCursorPosition` yields the grid-rounded raw position, not snapped. -/
theorem updateCursorPosition_grid_fallback (env : Env) (t : MeasureTool) (view : GraphicsView)
    (modifiers : Nat) (hview : t.mView = some view)
    (hshift : testFlag modifiers ShiftModifier = false)
    (hempty : t.mSnapCandidates = []) :
    (updateCursorPosition env t modifiers).mCursorPos =
      env.mappedToGrid t.mLastScenePos view.gridInterval ∧
    (updateCursorPosition env t modifiers).mCursorSnapped = false := by
  have h := updateCursorPosition_cursor env t view modifiers hview
  rw [hshift, hempty, scanNearest_nil] at h
  have hcond : ¬ ((0 : Int) ≤ ((⟨0, 0⟩, -1) : Point × Int).2 ∧
      ((⟨0, 0⟩, -1) : Point × Int).2 ≤
        (env.getLength
          (t.mLastScenePos - env.mappedToGrid t.mLastScenePos view.gridInterval) : Int)) := by
    simp
  rw [if_neg (by simp), if_neg hcond] at h
  exact ⟨congrArg Prod.fst h, congrArg Prod.snd h⟩

/-- Witness for C6: raw position (14,-16), grid 10, no candidates. -/
theorem updateCursorPosition_grid_fallback_witness :
    (updateCursorPosition stdEnv (sampleTool ⟨14, -16⟩ [] none none) 0).mCursorPos =
      stdEnv.mappedToGrid (sampleTool ⟨14, -16⟩ [] none none).mLastScenePos
        sampleView.gridInterval ∧
    (updateCursorPosition stdEnv (sampleTool ⟨14, -16⟩ [] none none) 0).mCursorSnapped = false :=
  updateCursorPosition_grid_fallback stdEnv (sampleTool ⟨14, -16⟩ [] none none) sampleView 0
    rfl (by decide) rfl

/-- C7: with a view attached and Shift held, `updateCursorPosition` leaves the
cursor on the raw position, not snapped, whatever the candidates and the grid
are. -/
theorem updateCursorPosition_snap_disabled (env : Env) (t : MeasureTool) (view : GraphicsView)
    (modifiers : Nat) (hview : t.mView = some view)
    (hshift : testFlag modifiers ShiftModifier = true) :
    (updateCursorPosition env t modifiers).mCursorPos = t.mLastScenePos ∧
    (updateCursorPosition env t modifiers).mCursorSnapped = false := by
  have h := updateCursorPosition_cursor env t view modifiers hview
  rw [if_pos hshift] at h
  exact ⟨congrArg Prod.fst h, congrArg Prod.snd h⟩

/-- Witness for C7: Shift held at raw position (14,1), one unit away from the
candidate (14,0). -/
theorem updateCursorPosition_snap_disabled_witness :
    (updateCursorPosition stdEnv (sampleTool ⟨14, 1⟩ [⟨14, 0⟩] none none)
        ShiftModifier).mCursorPos =
      (sampleTool ⟨14, 1⟩ [⟨14, 0⟩] none none).mLastScenePos ∧
    (updateCursorPosition stdEnv (sampleTool ⟨14, 1⟩ [⟨14, 0⟩] none none)
        ShiftModifier).mCursorSnapped = false :=
  updateCursorPosition_snap_disabled stdEnv (sampleTool ⟨14, 1⟩ [⟨14, 0⟩] none none) sampleView
    ShiftModifier rfl (by decide)

/-! ## The circle rule -/

/-- C4: the candidates of a circle with center `C` and diameter `D` are exactly
`C`, `C ± (0, D/2)` and `C ± (D/2, 0)`, with `D/2` the truncating division; the
offsets `(-D)/2` computed by the code equal `-(D/2)`, also for odd `D`. This
holds for every integer `D`, in particular for every non-negative one. -/
theorem snapCandidatesFromCircle_exact (C : Point) (D : Int) :
    (∀ p : Point, p ∈ snapCandidatesFromCircle C D ↔
      p = C ∨ p = C + ⟨0, Length.div D 2⟩ ∨ p = C - ⟨0, Length.div D 2⟩ ∨
        p = C + ⟨Length.div D 2, 0⟩ ∨ p = C - ⟨Length.div D 2, 0⟩) ∧
    Length.div (-D) 2 = -(Length.div D 2) := by
  have hneg : Length.div (-D) 2 = -(Length.div D 2) := Int.neg_tdiv D 2
  refine ⟨?_, hneg⟩
  intro p
  have h1 : C + (⟨0, -(Length.div D 2)⟩ : Point) = C - ⟨0, Length.div D 2⟩ := by
    show (⟨C.x + 0, C.y + -(Length.div D 2)⟩ : Point) = ⟨C.x - 0, C.y - Length.div D 2⟩
    simp [Int.sub_eq_add_neg]
  have h2 : C + (⟨-(Length.div D 2), 0⟩ : Point) = C - ⟨Length.div D 2, 0⟩ := by
    show (⟨C.x + -(Length.div D 2), C.y + 0⟩ : Point) = ⟨C.x - Length.div D 2, C.y - 0⟩
    simp [Int.sub_eq_add_neg]
  unfold snapCandidatesFromCircle
  simp only [QSet.mem_insert, hneg, h1, h2]
  simp [or_assoc]

/-! ## The measurement session -/

/-- C2: a left click in `Empty` or `Complete` makes the cursor position the
start point and clears the end point (state `Pending`); a left click in
`Pending` makes the cursor position the end point and keeps the start point
(state `Complete`). -/
theorem click_transitions (env : Env) (t : MeasureTool) (e : QGraphicsSceneMouseEvent) :
    (t.state = SessionState.Empty ∨ t.state = SessionState.Complete →
      (processGraphicsSceneLeftMouseButtonPressed env t e).1.mStartPos = some t.mCursorPos ∧
      (processGraphicsSceneLeftMouseButtonPressed env t e).1.mEndPos = none ∧
      (processGraphicsSceneLeftMouseButtonPressed env t e).1.state = SessionState.Pending) ∧
    (t.state = SessionState.Pending →
      (processGraphicsSceneLeftMouseButtonPressed env t e).1.mEndPos = some t.mCursorPos ∧
      (processGraphicsSceneLeftMouseButtonPressed env t e).1.mStartPos = t.mStartPos ∧
      (processGraphicsSceneLeftMouseButtonPressed env t e).1.state = SessionState.Complete) := by
  unfold processGraphicsSceneLeftMouseButtonPressed
  simp only [MeasureTool.state, (updateStatusBarMessage_fields env _).1,
    (updateStatusBarMessage_fields env _).2.1, (updateRulerPositions_fields env _).1,
    (updateRulerPositions_fields env _).2.1]
  cases hs : t.mStartPos <;> cases he : t.mEndPos <;> simp

/-- Witness for C2: one click in each of the three states, cursor at (7,9). -/
theorem click_transitions_witness :
    ((processGraphicsSceneLeftMouseButtonPressed stdEnv (sampleTool ⟨7, 9⟩ [] none none)
        ⟨⟨0, 0⟩, 0⟩).1.mStartPos = some ⟨7, 9⟩ ∧
      (processGraphicsSceneLeftMouseButtonPressed stdEnv (sampleTool ⟨7, 9⟩ [] none none)
        ⟨⟨0, 0⟩, 0⟩).1.mEndPos = none) ∧
    ((processGraphicsSceneLeftMouseButtonPressed stdEnv
        (sampleTool ⟨7, 9⟩ [] (some ⟨1, 2⟩) (some ⟨3, 4⟩)) ⟨⟨0, 0⟩, 0⟩).1.mStartPos = some ⟨7, 9⟩ ∧
      (processGraphicsSceneLeftMouseButtonPressed stdEnv
        (sampleTool ⟨7, 9⟩ [] (some ⟨1, 2⟩) (some ⟨3, 4⟩)) ⟨⟨0, 0⟩, 0⟩).1.mEndPos = none) ∧
    ((processGraphicsSceneLeftMouseButtonPressed stdEnv
        (sampleTool ⟨7, 9⟩ [] (some ⟨1, 2⟩) none) ⟨⟨0, 0⟩, 0⟩).1.mEndPos = some ⟨7, 9⟩ ∧
      (processGraphicsSceneLeftMouseButtonPressed stdEnv
        (sampleTool ⟨7, 9⟩ [] (some ⟨1, 2⟩) none) ⟨⟨0, 0⟩, 0⟩).1.mStartPos = some ⟨1, 2⟩) := by
  have h1 := (click_transitions stdEnv (sampleTool ⟨7, 9⟩ [] none none) ⟨⟨0, 0⟩, 0⟩).1
    (Or.inl rfl)
  have h2 := (click_transitions stdEnv (sampleTool ⟨7, 9⟩ [] (some ⟨1, 2⟩) (some ⟨3, 4⟩))
    ⟨⟨0, 0⟩, 0⟩).1 (Or.inr rfl)
  have h3 := (click_transitions stdEnv (sampleTool ⟨7, 9⟩ [] (some ⟨1, 2⟩) none)
    ⟨⟨0, 0⟩, 0⟩).2 rfl
  exact ⟨⟨h1.1, h1.2.1⟩, ⟨h2.1, h2.2.1⟩, ⟨h3.1, h3.2.1⟩⟩

/-- C3: in every state reached from the freshly constructed tool by any
sequence of events (click, move, key press and release, copy, remove, abort,
enter, leave, context setters), the end point is set only if the start point
is set. -/
theorem session_invariant (env : Env) (view : GraphicsView) (events : List Event) :
    (runEvents env (MeasureTool.new view) events).mEndPos.isSome = true →
      (runEvents env (MeasureTool.new view) events).mStartPos.isSome = true :=
  runEvents_preserves env events (MeasureTool.new view) (by simp [SessionInv, MeasureTool.new])

/-- Witness for C3: enter, click, move, click reaches a state with an end point
set, and there the start point is set. -/
theorem session_invariant_witness :
    (runEvents stdEnv (MeasureTool.new sampleView)
      [Event.enter ⟨3, 3⟩, Event.click ⟨⟨3, 3⟩, 0⟩, Event.move ⟨⟨27, 31⟩, 0⟩,
        Event.click ⟨⟨27, 31⟩, 0⟩]).mEndPos.isSome = true ∧
    (runEvents stdEnv (MeasureTool.new sampleView)
      [Event.enter ⟨3, 3⟩, Event.click ⟨⟨3, 3⟩, 0⟩, Event.move ⟨⟨27, 31⟩, 0⟩,
        Event.click ⟨⟨27, 31⟩, 0⟩]).mStartPos.isSome = true :=
  ⟨by decide, session_invariant stdEnv sampleView
    [Event.enter ⟨3, 3⟩, Event.click ⟨⟨3, 3⟩, 0⟩, Event.move ⟨⟨27, 31⟩, 0⟩,
      Event.click ⟨⟨27, 31⟩, 0⟩] (by decide)⟩

/-- C8: `processAbortCommand` in `Pending` clears the start point, giving
`Empty`, and returns true; in `Empty` and `Complete` it changes nothing and
returns false. -/
theorem processAbortCommand_spec (env : Env) (t : MeasureTool) :
    (t.state = SessionState.Pending →
      (processAbortCommand env t).1.mStartPos = none ∧
      (processAbortCommand env t).1.mEndPos = none ∧
      (processAbortCommand env t).1.state = SessionState.Empty ∧
      (processAbortCommand env t).2 = true) ∧
    (t.state = SessionState.Empty ∨ t.state = SessionState.Complete →
      (processAbortCommand env t).1 = t ∧ (processAbortCommand env t).2 = false) := by
  unfold processAbortCommand
  cases hs : t.mStartPos <;> cases he : t.mEndPos <;>
    simp [MeasureTool.state, hs, he, (updateStatusBarMessage_fields env _).1,
      (updateStatusBarMessage_fields env _).2.1, (updateRulerPositions_fields env _).1,
      (updateRulerPositions_fields env _).2.1]

/-- Witness for C8: abort in `Pending`, in `Empty` and in `Complete`. -/
theorem processAbortCommand_spec_witness :
    ((processAbortCommand stdEnv (sampleTool ⟨7, 9⟩ [] (some ⟨1, 2⟩) none)).1.mStartPos = none ∧
      (processAbortCommand stdEnv (sampleTool ⟨7, 9⟩ [] (some ⟨1, 2⟩) none)).2 = true) ∧
    ((processAbortCommand stdEnv (sampleTool ⟨7, 9⟩ [] none none)).1 =
        sampleTool ⟨7, 9⟩ [] none none ∧
      (processAbortCommand stdEnv (sampleTool ⟨7, 9⟩ [] none none)).2 = false) ∧
    ((processAbortCommand stdEnv (sampleTool ⟨7, 9⟩ [] (some ⟨1, 2⟩) (some ⟨3, 4⟩))).1 =
        sampleTool ⟨7, 9⟩ [] (some ⟨1, 2⟩) (some ⟨3, 4⟩) ∧
      (processAbortCommand stdEnv (sampleTool ⟨7, 9⟩ [] (some ⟨1, 2⟩) (some ⟨3, 4⟩))).2 =
        false) := by
  have h1 := (processAbortCommand_spec stdEnv (sampleTool ⟨7, 9⟩ [] (some ⟨1, 2⟩) none)).1 rfl
  have h2 := (processAbortCommand_spec stdEnv (sampleTool ⟨7, 9⟩ [] none none)).2 (Or.inl rfl)
  have h3 := (processAbortCommand_spec stdEnv
    (sampleTool ⟨7, 9⟩ [] (some ⟨1, 2⟩) (some ⟨3, 4⟩))).2 (Or.inr rfl)
  exact ⟨⟨h1.1, h1.2.2.2⟩, h2, h3⟩

/-- C9: `processRemove` in `Complete` clears both points, giving `Empty`, and
returns true; in `Empty` and `Pending` it changes nothing and returns false. -/
theorem processRemove_spec (env : Env) (t : MeasureTool) :
    (t.state = SessionState.Complete →
      (processRemove env t).1.mStartPos = none ∧
      (processRemove env t).1.mEndPos = none ∧
      (processRemove env t).1.state = SessionState.Empty ∧
      (processRemove env t).2 = true) ∧
    (t.state = SessionState.Empty ∨ t.state = SessionState.Pending →
      (processRemove env t).1 = t ∧ (processRemove env t).2 = false) := by
  unfold processRemove
  cases hs : t.mStartPos <;> cases he : t.mEndPos <;>
    simp [MeasureTool.state, hs, he, (updateStatusBarMessage_fields env _).1,
      (updateStatusBarMessage_fields env _).2.1, (updateRulerPositions_fields env _).1,
      (updateRulerPositions_fields env _).2.1]

/-- Witness for C9: remove in `Complete`, in `Empty` and in `Pending`. -/
theorem processRemove_spec_witness :
    ((processRemove stdEnv (sampleTool ⟨7, 9⟩ [] (some ⟨1, 2⟩) (some ⟨3, 4⟩))).1.mStartPos =
        none ∧
      (processRemove stdEnv (sampleTool ⟨7, 9⟩ [] (some ⟨1, 2⟩) (some ⟨3, 4⟩))).1.mEndPos =
        none ∧
      (processRemove stdEnv (sampleTool ⟨7, 9⟩ [] (some ⟨1, 2⟩) (some ⟨3, 4⟩))).2 = true) ∧
    ((processRemove stdEnv (sampleTool ⟨7, 9⟩ [] none none)).1 =
        sampleTool ⟨7, 9⟩ [] none none ∧
      (processRemove stdEnv (sampleTool ⟨7, 9⟩ [] none none)).2 = false) ∧
    ((processRemove stdEnv (sampleTool ⟨7, 9⟩ [] (some ⟨1, 2⟩) none)).1 =
        sampleTool ⟨7, 9⟩ [] (some ⟨1, 2⟩) none ∧
      (processRemove stdEnv (sampleTool ⟨7, 9⟩ [] (some ⟨1, 2⟩) none)).2 = false) := by
  have h1 := (processRemove_spec stdEnv
    (sampleTool ⟨7, 9⟩ [] (some ⟨1, 2⟩) (some ⟨3, 4⟩))).1 rfl
  have h2 := (processRemove_spec stdEnv (sampleTool ⟨7, 9⟩ [] none none)).2 (Or.inl rfl)
  have h3 := (processRemove_spec stdEnv (sampleTool ⟨7, 9⟩ [] (some ⟨1, 2⟩) none)).2
    (Or.inr rfl)
  exact ⟨⟨h1.1, h1.2.1, h1.2.2.2⟩, h2, h3⟩

/-- C10: `processCopy` hands one text to the clipboard and returns true exactly
when a view is attached and the session is `Complete`; otherwise it changes
nothing at all (no clipboard text, no message) and returns false; in every
state the start and end points stay as they are. -/
theorem processCopy_spec (env : Env) (t : MeasureTool) :
    ((processCopy env t).2 = true ↔
      (t.mView.isSome = true ∧ t.state = SessionState.Complete)) ∧
    ((∃ str, (processCopy env t).1.clipboard = t.clipboard ++ [str]) ↔
      (t.mView.isSome = true ∧ t.state = SessionState.Complete)) ∧
    ((processCopy env t).2 = false → (processCopy env t).1 = t) ∧
    (processCopy env t).1.mStartPos = t.mStartPos ∧
    (processCopy env t).1.mEndPos = t.mEndPos := by
  unfold processCopy
  cases hv : t.mView <;> cases hs : t.mStartPos <;> cases he : t.mEndPos <;>
    simp [MeasureTool.state, hs, he, MeasureTool.emitStatusBarMessage]

/-- Witness for C10: copy in `Pending` returns false and changes nothing. -/
theorem processCopy_spec_witness :
    (processCopy stdEnv (sampleTool ⟨7, 9⟩ [] (some ⟨1, 2⟩) none)).2 = false ∧
    (processCopy stdEnv (sampleTool ⟨7, 9⟩ [] (some ⟨1, 2⟩) none)).1 =
      sampleTool ⟨7, 9⟩ [] (some ⟨1, 2⟩) none :=
  ⟨rfl, (processCopy_spec stdEnv (sampleTool ⟨7, 9⟩ [] (some ⟨1, 2⟩) none)).2.2.1 rfl⟩

/-! ## Deactivation, ruler and context setters -/

/-- C11: `leave` keeps the start and end points; with a view attached it sets
the overlay text to empty and the scene cursor and the ruler to absent; and
when the session is `Complete`, a following `enter` hands the view the same
ruler (start, end) again. -/
theorem leave_frame (env : Env) (t : MeasureTool) :
    (leave t).mStartPos = t.mStartPos ∧ (leave t).mEndPos = t.mEndPos ∧
    (∀ view : GraphicsView, t.mView = some view →
      Option.map GraphicsView.overlayText (leave t).mView = some "" ∧
      Option.map GraphicsView.sceneCursor (leave t).mView = some none ∧
      Option.map GraphicsView.rulerPositions (leave t).mView = some none ∧
      ∀ (startPos endPos globalPos : Point),
        t.mStartPos = some startPos → t.mEndPos = some endPos →
          Option.map GraphicsView.rulerPositions (enter env (leave t) globalPos).mView =
            some (some (startPos, endPos))) := by
  refine ⟨(enter_leave_session env t ⟨0, 0⟩).2.2.1, (enter_leave_session env t ⟨0, 0⟩).2.2.2, ?_⟩
  intro view hview
  refine ⟨?_, ?_, ?_, ?_⟩
  · simp [leave, MeasureTool.emitStatusBarMessage, hview]
  · simp [leave, MeasureTool.emitStatusBarMessage, hview]
  · simp [leave, MeasureTool.emitStatusBarMessage, hview]
  · intro startPos endPos globalPos hs he
    have hv : (leave t).mView = some { view with
        cursorShape := none, overlayText := "", sceneCursor := none, rulerPositions := none,
        grayOut := false } := by
      simp [leave, MeasureTool.emitStatusBarMessage, hview]
    exact enter_complete env (leave t) _ globalPos startPos endPos hv
      ((enter_leave_session env t ⟨0, 0⟩).2.2.1.trans hs)
      ((enter_leave_session env t ⟨0, 0⟩).2.2.2.trans he)

/-- Witness for C11: a complete session (1,2)-(3,4) on the sample view; after
`leave` and `enter` the ruler is (1,2)-(3,4) again. -/
theorem leave_frame_witness :
    Option.map GraphicsView.overlayText
      (leave (sampleTool ⟨7, 9⟩ [] (some ⟨1, 2⟩) (some ⟨3, 4⟩))).mView = some "" ∧
    Option.map GraphicsView.rulerPositions
      (enter stdEnv (leave (sampleTool ⟨7, 9⟩ [] (some ⟨1, 2⟩) (some ⟨3, 4⟩))) ⟨5, 5⟩).mView =
        some (some (⟨1, 2⟩, ⟨3, 4⟩)) := by
  have h := (leave_frame stdEnv (sampleTool ⟨7, 9⟩ [] (some ⟨1, 2⟩) (some ⟨3, 4⟩))).2.2
    sampleView rfl
  exact ⟨h.1, h.2.2.2 ⟨1, 2⟩ ⟨3, 4⟩ ⟨5, 5⟩ rfl rfl⟩

/-- C12: with a view attached, `updateRulerPositions` hands the view no ruler
when the start point is unset; in `Pending` the ruler runs from the start point
to the current cursor; in `Complete` it is (start, end), whatever the cursor
is. -/
theorem updateRulerPositions_ruler (env : Env) (t : MeasureTool) (view : GraphicsView)
    (hview : t.mView = some view) :
    (t.mStartPos = none →
      Option.map GraphicsView.rulerPositions (updateRulerPositions env t).mView = some none) ∧
    (∀ startPos : Point, t.mStartPos = some startPos → t.mEndPos = none →
      Option.map GraphicsView.rulerPositions (updateRulerPositions env t).mView =
        some (some (startPos, t.mCursorPos))) ∧
    (∀ startPos endPos : Point, t.mStartPos = some startPos → t.mEndPos = some endPos →
      Option.map GraphicsView.rulerPositions (updateRulerPositions env t).mView =
        some (some (startPos, endPos))) := by
  refine ⟨?_, ?_, ?_⟩
  · intro hs
    simp [updateRulerPositions, hview, hs]
  · intro startPos hs he
    simp [updateRulerPositions, hview, hs, he]
  · intro startPos endPos hs he
    simp [updateRulerPositions, hview, hs, he]

/-- Witness for C12: a pending session started at (1,2) with the cursor at
(7,9). -/
theorem updateRulerPositions_ruler_witness :
    Option.map GraphicsView.rulerPositions
      (updateRulerPositions stdEnv (sampleTool ⟨7, 9⟩ [] (some ⟨1, 2⟩) none)).mView =
        some (some (⟨1, 2⟩, ⟨7, 9⟩)) :=
  (updateRulerPositions_ruler stdEnv (sampleTool ⟨7, 9⟩ [] (some ⟨1, 2⟩) none) sampleView
    rfl).2.1 ⟨1, 2⟩ rfl rfl

/-- C13: each context setter replaces the candidate set wholesale: the set
after the call is the same for two tools with different prior sets, and it is
empty when the context is absent. -/
theorem setters_replace_wholesale (env : Env) :
    (∀ (t1 t2 : MeasureTool) (x : Option Symbol),
      (setSymbol env t1 x).mSnapCandidates = (setSymbol env t2 x).mSnapCandidates) ∧
    (∀ (t1 t2 : MeasureTool) (x : Option Footprint),
      (setFootprint env t1 x).mSnapCandidates = (setFootprint env t2 x).mSnapCandidates) ∧
    (∀ (t1 t2 : MeasureTool) (x : Option Schematic),
      (setSchematic env t1 x).mSnapCandidates = (setSchematic env t2 x).mSnapCandidates) ∧
    (∀ (t1 t2 : MeasureTool) (x : Option Board),
      (setBoard env t1 x).mSnapCandidates = (setBoard env t2 x).mSnapCandidates) ∧
    (∀ t : MeasureTool, (setSymbol env t none).mSnapCandidates = [] ∧
      (setFootprint env t none).mSnapCandidates = [] ∧
      (setSchematic env t none).mSnapCandidates = [] ∧
      (setBoard env t none).mSnapCandidates = []) := by
  refine ⟨?_, ?_, ?_, ?_, ?_⟩
  · intro t1 t2 x
    cases x <;> rfl
  · intro t1 t2 x
    cases x <;> rfl
  · intro t1 t2 x
    cases x <;> rfl
  · intro t1 t2 x
    cases x <;> rfl
  · intro t
    exact ⟨rfl, rfl, rfl, rfl⟩

/-! ## The snap target -/

/-- C20: with a view attached and Shift not held: when `updateCursorPosition`
reports snapped, the cursor is a candidate that is at least as near to the raw
position as every candidate; when it reports not snapped, the cursor is the
grid-rounded raw position and every candidate is strictly farther from the raw
position than that grid point. -/
theorem updateCursorPosition_target (env : Env) (t : MeasureTool) (view : GraphicsView)
    (modifiers : Nat) (hview : t.mView = some view)
    (hshift : testFlag modifiers ShiftModifier = false) :
    ((updateCursorPosition env t modifiers).mCursorSnapped = true →
      (updateCursorPosition env t modifiers).mCursorPos ∈ t.mSnapCandidates ∧
      ∀ c ∈ t.mSnapCandidates,
        env.getLength (t.mLastScenePos - (updateCursorPosition env t modifiers).mCursorPos) ≤
          env.getLength (t.mLastScenePos - c)) ∧
    ((updateCursorPosition env t modifiers).mCursorSnapped = false →
      (updateCursorPosition env t modifiers).mCursorPos =
        env.mappedToGrid t.mLastScenePos view.gridInterval ∧
      ∀ c ∈ t.mSnapCandidates,
        env.getLength (t.mLastScenePos - env.mappedToGrid t.mLastScenePos view.gridInterval) <
          env.getLength (t.mLastScenePos - c)) := by
  have h := updateCursorPosition_cursor env t view modifiers hview
  rw [hshift, if_neg (by simp)] at h
  by_cases hcond : (0 : Int) ≤ (scanNearest env t.mLastScenePos t.mSnapCandidates).2 ∧
      (scanNearest env t.mLastScenePos t.mSnapCandidates).2 ≤
        (env.getLength
          (t.mLastScenePos - env.mappedToGrid t.mLastScenePos view.gridInterval) : Int)
  · rw [if_pos hcond] at h
    have hp : (updateCursorPosition env t modifiers).mCursorPos =
        (scanNearest env t.mLastScenePos t.mSnapCandidates).1 := congrArg Prod.fst h
    have hs : (updateCursorPosition env t modifiers).mCursorSnapped = true :=
      congrArg Prod.snd h
    rw [hp, hs]
    have hne : t.mSnapCandidates ≠ [] := by
      intro hnil
      rw [hnil, scanNearest_nil] at hcond
      have h0 := hcond.1
      simp at h0
    obtain ⟨hm, hd, hmin⟩ := scanNearest_spec env t.mLastScenePos t.mSnapCandidates hne
    refine ⟨fun _ => ⟨hm, ?_⟩, fun hf => absurd hf (by simp)⟩
    intro c hc
    have := hmin c hc
    omega
  · rw [if_neg hcond] at h
    have hp : (updateCursorPosition env t modifiers).mCursorPos =
        env.mappedToGrid t.mLastScenePos view.gridInterval := congrArg Prod.fst h
    have hs : (updateCursorPosition env t modifiers).mCursorSnapped = false :=
      congrArg Prod.snd h
    rw [hp, hs]
    refine ⟨fun hf => absurd hf (by simp), fun _ => ⟨rfl, ?_⟩⟩
    intro c hc
    have hne : t.mSnapCandidates ≠ [] := List.ne_nil_of_mem hc
    obtain ⟨hm, hd, hmin⟩ := scanNearest_spec env t.mLastScenePos t.mSnapCandidates hne
    have h1 := hmin c hc
    have h2 : ¬ (scanNearest env t.mLastScenePos t.mSnapCandidates).2 ≤
        (env.getLength
          (t.mLastScenePos - env.mappedToGrid t.mLastScenePos view.gridInterval) : Int) := by
      intro hle
      exact hcond ⟨by omega, hle⟩
    omega

/-- Witness for C20: raw position (1,0), grid 10, candidates (3,0) and (1,2):
both are farther away than the grid point (0,0), so the cursor is not
snapped. -/
theorem updateCursorPosition_target_witness :
    (updateCursorPosition stdEnv (sampleTool ⟨1, 0⟩ [⟨3, 0⟩, ⟨1, 2⟩] none none) 0).mCursorPos =
      stdEnv.mappedToGrid (sampleTool ⟨1, 0⟩ [⟨3, 0⟩, ⟨1, 2⟩] none none).mLastScenePos
        sampleView.gridInterval ∧
    ∀ c ∈ (sampleTool ⟨1, 0⟩ [⟨3, 0⟩, ⟨1, 2⟩] none none).mSnapCandidates,
      stdEnv.getLength ((sampleTool ⟨1, 0⟩ [⟨3, 0⟩, ⟨1, 2⟩] none none).mLastScenePos -
          stdEnv.mappedToGrid (sampleTool ⟨1, 0⟩ [⟨3, 0⟩, ⟨1, 2⟩] none none).mLastScenePos
            sampleView.gridInterval) <
        stdEnv.getLength ((sampleTool ⟨1, 0⟩ [⟨3, 0⟩, ⟨1, 2⟩] none none).mLastScenePos - c) :=
  (updateCursorPosition_target stdEnv (sampleTool ⟨1, 0⟩ [⟨3, 0⟩, ⟨1, 2⟩] none none)
    sampleView 0 rfl (by decide)).2 rfl

/-! ## Extraction rules -/

/-- C14: for an environment in which rotating by 0 and mapping through the
identity transform change nothing, every pad of a footprint with rotation 0,
position `P`, width `W` and height `H` contributes `P`, `P ± (W/2, 0)` and
`P ± (0, H/2)` to `snapCandidatesFromFootprint` under the identity transform. -/
theorem pad_reach_points (env : Env) (hrot : ∀ q : Point, env.rotated q 0 = q)
    (hid : ∀ q : Point, env.transformMap Transform.identity q = q)
    (footprint : Footprint) (pad : FootprintPad) (hpad : pad ∈ footprint.pads)
    (hr : pad.rotation = 0) :
    pad.position ∈ snapCandidatesFromFootprint env footprint Transform.identity ∧
    pad.position + ⟨Length.div (pad.width : Int) 2, 0⟩ ∈
      snapCandidatesFromFootprint env footprint Transform.identity ∧
    pad.position - ⟨Length.div (pad.width : Int) 2, 0⟩ ∈
      snapCandidatesFromFootprint env footprint Transform.identity ∧
    pad.position + ⟨0, Length.div (pad.height : Int) 2⟩ ∈
      snapCandidatesFromFootprint env footprint Transform.identity ∧
    pad.position - ⟨0, Length.div (pad.height : Int) 2⟩ ∈
      snapCandidatesFromFootprint env footprint Transform.identity := by
  have key : ∀ q : Point, q ∈ snapCandidatesFromPad env Transform.identity [] pad →
      q ∈ snapCandidatesFromFootprint env footprint Transform.identity := fun q hq =>
    (mem_snapCandidatesFromFootprint env footprint Transform.identity q).mpr
      (Or.inl ⟨pad, hpad, hq⟩)
  have hm := fun q => mem_snapCandidatesFromPad env Transform.identity [] pad q
  simp only [hr, hrot, hid] at hm
  refine ⟨key _ ((hm _).mpr ?_), key _ ((hm _).mpr ?_), key _ ((hm _).mpr ?_),
    key _ ((hm _).mpr ?_), key _ ((hm _).mpr ?_)⟩
  · exact Or.inr (Or.inl rfl)
  · exact Or.inr (Or.inr (Or.inr (Or.inl (Point.add_comm _ _))))
  · exact Or.inr (Or.inr (Or.inr (Or.inr (Or.inl (Point.sub_x_offset _ _)))))
  · exact Or.inr (Or.inr (Or.inr (Or.inr (Or.inr (Or.inl (Point.add_comm _ _))))))
  · exact Or.inr (Or.inr (Or.inr (Or.inr (Or.inr (Or.inr (Or.inl (Point.sub_y_offset _ _)))))))

/-- Witness for C14: the pad at the origin with width 2000 and height 1000
gives (0,0), (1000,0), (-1000,0), (0,500) and (0,-500). -/
theorem pad_reach_points_witness :
    (⟨0, 0⟩ : Point) ∈ snapCandidatesFromFootprint stdEnv samplePadFootprint Transform.identity ∧
    (⟨1000, 0⟩ : Point) ∈
      snapCandidatesFromFootprint stdEnv samplePadFootprint Transform.identity ∧
    (⟨-1000, 0⟩ : Point) ∈
      snapCandidatesFromFootprint stdEnv samplePadFootprint Transform.identity ∧
    (⟨0, 500⟩ : Point) ∈
      snapCandidatesFromFootprint stdEnv samplePadFootprint Transform.identity ∧
    (⟨0, -500⟩ : Point) ∈
      snapCandidatesFromFootprint stdEnv samplePadFootprint Transform.identity :=
  pad_reach_points stdEnv stdEnv_rotated_zero stdEnv_transformMap_identity samplePadFootprint
    ⟨⟨0, 0⟩, 0, 2000, 1000, 0, ⟨[]⟩⟩ (by decide) rfl

/-- C16: for every via of a net segment of the board, with position `P`, size
`S` and drill diameter `D`, the candidate set built by `setBoard` contains `P`,
the four cardinal points `P ± (S/2, 0)` and `P ± (0, S/2)`, and every point of
`snapCandidatesFromCircle P D`. -/
theorem via_rule (env : Env) (t : MeasureTool) (board : Board) (segment : BI_NetSegment)
    (via : BI_Via) (hseg : segment ∈ board.netSegments) (hvia : via ∈ segment.vias) :
    via.position ∈ (setBoard env t (some board)).mSnapCandidates ∧
    via.position + ⟨Length.div (via.size : Int) 2, 0⟩ ∈
      (setBoard env t (some board)).mSnapCandidates ∧
    via.position - ⟨Length.div (via.size : Int) 2, 0⟩ ∈
      (setBoard env t (some board)).mSnapCandidates ∧
    via.position + ⟨0, Length.div (via.size : Int) 2⟩ ∈
      (setBoard env t (some board)).mSnapCandidates ∧
    via.position - ⟨0, Length.div (via.size : Int) 2⟩ ∈
      (setBoard env t (some board)).mSnapCandidates ∧
    ∀ p ∈ snapCandidatesFromCircle via.position (via.drillDiameter : Int),
      p ∈ (setBoard env t (some board)).mSnapCandidates := by
  have hset : (setBoard env t (some board)).mSnapCandidates = snapCandidatesFromBoard env board :=
    rfl
  rw [hset]
  have key : ∀ q : Point, q ∈ snapCandidatesFromVia [] via →
      q ∈ snapCandidatesFromBoard env board := fun q hq =>
    (mem_snapCandidatesFromBoard env board q).mpr
      (Or.inr (Or.inl ⟨segment, hseg, Or.inr ⟨via, hvia, hq⟩⟩))
  have hm := fun q => mem_snapCandidatesFromVia [] via q
  refine ⟨key _ ((hm _).mpr ?_), key _ ((hm _).mpr ?_), key _ ((hm _).mpr ?_),
    key _ ((hm _).mpr ?_), key _ ((hm _).mpr ?_), fun p hp => key _ ((hm _).mpr ?_)⟩
  · exact Or.inr (Or.inl rfl)
  · exact Or.inr (Or.inr (Or.inr (Or.inl (Point.add_comm _ _))))
  · exact Or.inr (Or.inr (Or.inr (Or.inr (Or.inl (Point.sub_x_offset _ _)))))
  · exact Or.inr (Or.inr (Or.inr (Or.inr (Or.inr (Or.inl (Point.add_comm _ _))))))
  · exact Or.inr (Or.inr (Or.inr (Or.inr (Or.inr (Or.inr (Or.inl (Point.sub_y_offset _ _)))))))
  · exact Or.inr (Or.inr (Or.inr (Or.inr (Or.inr (Or.inr (Or.inr hp))))))

/-- Witness for C16: the via at (100,200) with size 60 and drill 30 gives
(100,200), (130,200), (70,200), (100,230), (100,170) and the drill circle point
(100,215). -/
theorem via_rule_witness :
    (⟨100, 200⟩ : Point) ∈
      (setBoard stdEnv (MeasureTool.new sampleView) (some sampleBoard)).mSnapCandidates ∧
    (⟨130, 200⟩ : Point) ∈
      (setBoard stdEnv (MeasureTool.new sampleView) (some sampleBoard)).mSnapCandidates ∧
    (⟨70, 200⟩ : Point) ∈
      (setBoard stdEnv (MeasureTool.new sampleView) (some sampleBoard)).mSnapCandidates ∧
    (⟨100, 230⟩ : Point) ∈
      (setBoard stdEnv (MeasureTool.new sampleView) (some sampleBoard)).mSnapCandidates ∧
    (⟨100, 170⟩ : Point) ∈
      (setBoard stdEnv (MeasureTool.new sampleView) (some sampleBoard)).mSnapCandidates ∧
    (⟨100, 215⟩ : Point) ∈
      (setBoard stdEnv (MeasureTool.new sampleView) (some sampleBoard)).mSnapCandidates := by
  have h := via_rule stdEnv (MeasureTool.new sampleView) sampleBoard ⟨[], [sampleVia]⟩ sampleVia
    (by decide) (by decide)
  exact ⟨h.1, h.2.1, h.2.2.1, h.2.2.2.1, h.2.2.2.2.1, h.2.2.2.2.2 ⟨100, 215⟩ (by decide)⟩

/-- C17: in `snapCandidatesFromFootprint` and in `setBoard`, the candidates are
those obtained without any hole together with, for every hole and every vertex
`v` of its path, the circle candidates at the (mapped) `v` with the hole
diameter; a hole whose path has no vertices leaves the result as it is without
that hole. -/
theorem hole_rule (env : Env) :
    (∀ (footprint : Footprint) (tr : Transform) (p : Point),
      p ∈ snapCandidatesFromFootprint env footprint tr ↔
        p ∈ snapCandidatesFromFootprint env { footprint with holes := [] } tr ∨
        ∃ h ∈ footprint.holes, ∃ v ∈ h.path.vertices,
          p ∈ snapCandidatesFromCircle (env.transformMap tr v.pos) (h.diameter : Int)) ∧
    (∀ (t : MeasureTool) (board : Board) (p : Point),
      p ∈ (setBoard env t (some board)).mSnapCandidates ↔
        p ∈ (setBoard env t (some { board with holes := [] })).mSnapCandidates ∨
        ∃ h ∈ board.holes, ∃ v ∈ h.path.vertices,
          p ∈ snapCandidatesFromCircle v.pos (h.diameter : Int)) ∧
    (∀ (footprint : Footprint) (tr : Transform) (before after : List Hole) (diameter : Nat),
      snapCandidatesFromFootprint env
          { footprint with holes := before ++ ⟨diameter, ⟨[]⟩⟩ :: after } tr =
        snapCandidatesFromFootprint env { footprint with holes := before ++ after } tr) ∧
    (∀ (t : MeasureTool) (board : Board) (before after : List Hole) (diameter : Nat),
      (setBoard env t
          (some { board with holes := before ++ ⟨diameter, ⟨[]⟩⟩ :: after })).mSnapCandidates =
        (setBoard env t (some { board with holes := before ++ after })).mSnapCandidates) := by
  refine ⟨?_, ?_, ?_, ?_⟩
  · intro footprint tr p
    rw [mem_snapCandidatesFromFootprint, mem_snapCandidatesFromFootprint]
    simp only [List.not_mem_nil, false_and, exists_false, or_false, or_assoc]
  · intro t board p
    show p ∈ snapCandidatesFromBoard env board ↔
      p ∈ snapCandidatesFromBoard env { board with holes := [] } ∨ _
    rw [mem_snapCandidatesFromBoard, mem_snapCandidatesFromBoard]
    simp only [List.not_mem_nil, false_and, exists_false, or_false, or_assoc]
  · intro footprint tr before after diameter
    unfold snapCandidatesFromFootprint
    simp only [List.foldl_append, List.foldl_cons]
    rfl
  · intro t board before after diameter
    show snapCandidatesFromBoard env _ = snapCandidatesFromBoard env _
    unfold snapCandidatesFromBoard
    simp only [List.foldl_append, List.foldl_cons]
    rfl

/-- C15 fails as stated: for the pin at the origin with length 10 and rotation
0, under the identity transform, the candidates are the origin and the pin end
(10,0); none of the four points at half the length from the origin is a
candidate. -/
theorem pin_rule_counterexample :
    snapCandidatesFromSymbol stdEnv samplePinSymbol Transform.identity = [⟨0, 0⟩, ⟨10, 0⟩] ∧
    stdEnv.transformMap Transform.identity
        ((⟨0, 0⟩ : Point) + stdEnv.rotated ⟨Length.div 10 2, 0⟩ 0) ∉
      snapCandidatesFromSymbol stdEnv samplePinSymbol Transform.identity ∧
    stdEnv.transformMap Transform.identity
        ((⟨0, 0⟩ : Point) + stdEnv.rotated ⟨Length.div (-10) 2, 0⟩ 0) ∉
      snapCandidatesFromSymbol stdEnv samplePinSymbol Transform.identity ∧
    stdEnv.transformMap Transform.identity
        ((⟨0, 0⟩ : Point) + stdEnv.rotated ⟨0, Length.div 10 2⟩ 0) ∉
      snapCandidatesFromSymbol stdEnv samplePinSymbol Transform.identity ∧
    stdEnv.transformMap Transform.identity
        ((⟨0, 0⟩ : Point) + stdEnv.rotated ⟨0, Length.div (-10) 2⟩ 0) ∉
      snapCandidatesFromSymbol stdEnv samplePinSymbol Transform.identity := by
  decide

/-- C15 as amended: for every pin of a symbol, with origin `P`, length `L` and
rotation `R`, `snapCandidatesFromSymbol` emits the mapped origin and the mapped
pin end `P + (L, 0)` rotated by `R`; and a symbol made of pins only has no
other candidates. -/
theorem pin_rule (env : Env) (tr : Transform) :
    (∀ (symbol : Symbol) (pin : SymbolPin), pin ∈ symbol.pins →
      env.transformMap tr pin.position ∈ snapCandidatesFromSymbol env symbol tr ∧
      env.transformMap tr (pin.position + env.rotated ⟨(pin.length : Int), 0⟩ pin.rotation) ∈
        snapCandidatesFromSymbol env symbol tr) ∧
    (∀ (pins : List SymbolPin) (p : Point),
      p ∈ snapCandidatesFromSymbol env ⟨pins, [], [], []⟩ tr ↔
        ∃ pin ∈ pins, p = env.transformMap tr pin.position ∨
          p = env.transformMap tr
            (pin.position + env.rotated ⟨(pin.length : Int), 0⟩ pin.rotation)) := by
  refine ⟨?_, ?_⟩
  · intro symbol pin hpin
    exact ⟨(mem_snapCandidatesFromSymbol env symbol tr _).mpr (Or.inl ⟨pin, hpin, Or.inl rfl⟩),
      (mem_snapCandidatesFromSymbol env symbol tr _).mpr (Or.inl ⟨pin, hpin, Or.inr rfl⟩)⟩
  · intro pins p
    rw [mem_snapCandidatesFromSymbol]
    simp only [List.not_mem_nil, false_and, exists_false, or_false]

/-- Witness for C15 as amended: the pin at the origin with length 10 gives the
origin and (10,0). -/
theorem pin_rule_witness :
    (⟨0, 0⟩ : Point) ∈ snapCandidatesFromSymbol stdEnv samplePinSymbol Transform.identity ∧
    (⟨10, 0⟩ : Point) ∈ snapCandidatesFromSymbol stdEnv samplePinSymbol Transform.identity :=
  (pin_rule stdEnv Transform.identity).1 samplePinSymbol ⟨⟨0, 0⟩, 10, 0⟩ (by decide)

/-! ## Status bar -/

/-- C19 fails as stated: in `Complete`, with no key sequence bound to the copy
command, `updateStatusBarMessage` emits the start-point prompt with the
snap-disable note, not the shortcut hints. -/
theorem updateStatusBarMessage_counterexample :
    (sampleTool ⟨7, 9⟩ [] (some ⟨1, 2⟩) (some ⟨3, 4⟩)).state = SessionState.Complete ∧
    (updateStatusBarMessage noCopyKeyEnv
      (sampleTool ⟨7, 9⟩ [] (some ⟨1, 2⟩) (some ⟨3, 4⟩))).statusBarMessages =
        [("Click to specify the start point (press Shift to disable snap)", none)] := by
  decide

/-- C19 as amended: for a session satisfying the invariant,
`updateStatusBarMessage` emits the start-point prompt with the snap-disable
note in `Empty`, the end-point prompt with the snap-disable note in `Pending`,
and in `Complete` the copy/remove shortcut hints (without the note) when both
commands have a key sequence bound, the start-point prompt with the note
otherwise. -/
theorem updateStatusBarMessage_by_state (env : Env) (t : MeasureTool) (hinv : SessionInv t) :
    (t.state = SessionState.Empty →
      (updateStatusBarMessage env t).statusBarMessages = t.statusBarMessages ++
        [("Click to specify the start point" ++ disableSnapNote, none)]) ∧
    (t.state = SessionState.Pending →
      (updateStatusBarMessage env t).statusBarMessages = t.statusBarMessages ++
        [("Click to specify the end point" ++ disableSnapNote, none)]) ∧
    (t.state = SessionState.Complete → env.copyKeys ≠ [] → env.deleteKeys ≠ [] →
      (updateStatusBarMessage env t).statusBarMessages = t.statusBarMessages ++
        [("Press " ++ env.copyKeys.headD "" ++ " to copy the value to clipboard or " ++
          env.deleteKeys.headD "" ++ " to clear the measurement", none)]) ∧
    (t.state = SessionState.Complete → (env.copyKeys = [] ∨ env.deleteKeys = []) →
      (updateStatusBarMessage env t).statusBarMessages = t.statusBarMessages ++
        [("Click to specify the start point" ++ disableSnapNote, none)]) := by
  unfold SessionInv at hinv
  unfold updateStatusBarMessage MeasureTool.emitStatusBarMessage MeasureTool.state
  cases hs : t.mStartPos <;> cases he : t.mEndPos <;> simp [hs, he] at hinv ⊢
  refine ⟨fun h1 h2 => by simp [h1, h2], ?_⟩
  rintro (h | h) <;> simp [h]

/-- Witness for C19 as amended: the four cases on the sample tool with the
default bindings and with no copy binding. -/
theorem updateStatusBarMessage_by_state_witness :
    (updateStatusBarMessage stdEnv (sampleTool ⟨7, 9⟩ [] none none)).statusBarMessages =
      (sampleTool ⟨7, 9⟩ [] none none).statusBarMessages ++
        [("Click to specify the start point" ++ disableSnapNote, none)] ∧
    (updateStatusBarMessage stdEnv (sampleTool ⟨7, 9⟩ [] (some ⟨1, 2⟩) none)).statusBarMessages =
      (sampleTool ⟨7, 9⟩ [] (some ⟨1, 2⟩) none).statusBarMessages ++
        [("Click to specify the end point" ++ disableSnapNote, none)] ∧
    (updateStatusBarMessage stdEnv
        (sampleTool ⟨7, 9⟩ [] (some ⟨1, 2⟩) (some ⟨3, 4⟩))).statusBarMessages =
      (sampleTool ⟨7, 9⟩ [] (some ⟨1, 2⟩) (some ⟨3, 4⟩)).statusBarMessages ++
        [("Press " ++ stdEnv.copyKeys.headD "" ++ " to copy the value to clipboard or " ++
          stdEnv.deleteKeys.headD "" ++ " to clear the measurement", none)] ∧
    (updateStatusBarMessage noCopyKeyEnv
        (sampleTool ⟨7, 9⟩ [] (some ⟨1, 2⟩) (some ⟨3, 4⟩))).statusBarMessages =
      (sampleTool ⟨7, 9⟩ [] (some ⟨1, 2⟩) (some ⟨3, 4⟩)).statusBarMessages ++
        [("Click to specify the start point" ++ disableSnapNote, none)] :=
  ⟨(updateStatusBarMessage_by_state stdEnv (sampleTool ⟨7, 9⟩ [] none none)
      (by unfold SessionInv; decide)).1 rfl,
    (updateStatusBarMessage_by_state stdEnv (sampleTool ⟨7, 9⟩ [] (some ⟨1, 2⟩) none)
      (by unfold SessionInv; decide)).2.1 rfl,
    (updateStatusBarMessage_by_state stdEnv (sampleTool ⟨7, 9⟩ [] (some ⟨1, 2⟩) (some ⟨3, 4⟩))
      (by unfold SessionInv; decide)).2.2.1 rfl (by decide) (by decide),
    (updateStatusBarMessage_by_state noCopyKeyEnv
      (sampleTool ⟨7, 9⟩ [] (some ⟨1, 2⟩) (some ⟨3, 4⟩))
      (by unfold SessionInv; decide)).2.2.2 rfl (Or.inl rfl)⟩

/-! ## Order independence -/

/-- C18: permuting the lists of children of a symbol or footprint, or the
vertices within its paths, leaves the set of candidates the same (the same
points are members), and the extracted set has no repeated point, so that
children producing the same coordinates contribute a single candidate. -/
theorem extraction_order_independent (env : Env) (tr : Transform) :
    (∀ a b : Symbol, Symbol.Reordered a b →
      ∀ p : Point, p ∈ snapCandidatesFromSymbol env a tr ↔
        p ∈ snapCandidatesFromSymbol env b tr) ∧
    (∀ a b : Footprint, Footprint.Reordered a b →
      ∀ p : Point, p ∈ snapCandidatesFromFootprint env a tr ↔
        p ∈ snapCandidatesFromFootprint env b tr) ∧
    (∀ a : Symbol, (snapCandidatesFromSymbol env a tr).Nodup) ∧
    (∀ a : Footprint, (snapCandidatesFromFootprint env a tr).Nodup) ∧
    (∀ path : Path, (snapCandidatesFromPath path).Nodup) := by
  refine ⟨?_, ?_, fun a => nodup_snapCandidatesFromSymbol env a tr,
    fun a => nodup_snapCandidatesFromFootprint env a tr, nodup_snapCandidatesFromPath⟩
  · rintro a b ⟨hpins, hpolys, hcircles, htexts⟩ p
    rw [mem_snapCandidatesFromSymbol, mem_snapCandidatesFromSymbol]
    exact or_congr (perm_exists_congr hpins _)
      (or_congr
        (reordered_exists_congr _ (polygon_permuted_congr (env.transformMap tr) p) hpolys)
        (or_congr (perm_exists_congr hcircles _) (perm_exists_congr htexts _)))
  · rintro a b ⟨hpads, hpolys, hcircles, htexts, hholes⟩ p
    rw [mem_snapCandidatesFromFootprint, mem_snapCandidatesFromFootprint]
    exact or_congr (reordered_exists_congr _ (pad_permuted_congr env tr p) hpads)
      (or_congr
        (reordered_exists_congr _ (polygon_permuted_congr (env.transformMap tr) p) hpolys)
        (or_congr (perm_exists_congr hcircles _)
          (or_congr (perm_exists_congr htexts _)
            (reordered_exists_congr _ (hole_permuted_congr (env.transformMap tr) p) hholes))))

/-- Witness for C18: swapping the two pins of `sampleSymbolA` and rotating the
vertex list of its triangle keeps the pin end (10,5) a candidate. -/
theorem extraction_order_independent_witness :
    ((⟨10, 5⟩ : Point) ∈ snapCandidatesFromSymbol stdEnv sampleSymbolA Transform.identity ↔
      (⟨10, 5⟩ : Point) ∈ snapCandidatesFromSymbol stdEnv sampleSymbolB Transform.identity) ∧
    (⟨10, 5⟩ : Point) ∈ snapCandidatesFromSymbol stdEnv sampleSymbolA Transform.identity :=
  ⟨(extraction_order_independent stdEnv Transform.identity).1 sampleSymbolA sampleSymbolB
    ⟨List.Perm.swap _ _ [],
      ⟨[⟨⟨[⟨⟨1, 1⟩, 0⟩, ⟨⟨2, 1⟩, 0⟩, ⟨⟨1, 2⟩, 0⟩]⟩⟩], List.Perm.refl _,
        List.Forall₂.cons
          (show List.Perm [(⟨⟨1, 1⟩, 0⟩ : Vertex), ⟨⟨2, 1⟩, 0⟩, ⟨⟨1, 2⟩, 0⟩]
            [⟨⟨1, 2⟩, 0⟩, ⟨⟨1, 1⟩, 0⟩, ⟨⟨2, 1⟩, 0⟩] by decide) List.Forall₂.nil⟩,
      List.Perm.refl _, List.Perm.refl _⟩ ⟨10, 5⟩, by decide⟩

/-! ## Tie-break among candidates -/

/-- C21: with the candidate set listed in iteration order as
`pre ++ c :: post`, where every candidate before `c` is strictly farther from
the raw position and every candidate after `c` is at least as far, the scan of
`updateCursorPosition` ends with `c`: the first candidate of minimal distance.
A later candidate replaces the recorded one only when strictly nearer. With a
view attached, Shift not held and `c` no farther than the grid point, the
cursor lands on `c`. -/
theorem updateCursorPosition_first_minimum (env : Env) (t : MeasureTool) (view : GraphicsView)
    (modifiers : Nat) (pre post : List Point) (c : Point)
    (hview : t.mView = some view) (hshift : testFlag modifiers ShiftModifier = false)
    (hcands : t.mSnapCandidates = pre ++ c :: post)
    (hpre : ∀ d ∈ pre, env.getLength (t.mLastScenePos - c) < env.getLength (t.mLastScenePos - d))
    (hpost : ∀ d ∈ post,
      env.getLength (t.mLastScenePos - c) ≤ env.getLength (t.mLastScenePos - d)) :
    scanNearest env t.mLastScenePos t.mSnapCandidates =
      (c, (env.getLength (t.mLastScenePos - c) : Int)) ∧
    (∀ (acc : Point × Int) (later : Point), (0 : Int) ≤ acc.2 →
      ¬ (env.getLength (t.mLastScenePos - later) : Int) < acc.2 →
        scanStep env t.mLastScenePos acc later = acc) ∧
    (env.getLength (t.mLastScenePos - c) ≤
        env.getLength (t.mLastScenePos - env.mappedToGrid t.mLastScenePos view.gridInterval) →
      (updateCursorPosition env t modifiers).mCursorPos = c ∧
      (updateCursorPosition env t modifiers).mCursorSnapped = true) := by
  have hscan : scanNearest env t.mLastScenePos t.mSnapCandidates =
      (c, (env.getLength (t.mLastScenePos - c) : Int)) := by
    rw [hcands]
    exact scanNearest_first_minimum env t.mLastScenePos pre post c hpre hpost
  refine ⟨hscan, ?_, ?_⟩
  · intro acc later h0 hnlt
    have h1 : ¬ acc.2 < 0 := by omega
    simp [scanStep, h1, hnlt]
  · intro hgrid
    have h := updateCursorPosition_cursor env t view modifiers hview
    rw [hshift, if_neg (by simp), hscan] at h
    have hcond : (0 : Int) ≤ ((c, (env.getLength (t.mLastScenePos - c) : Int)) : Point × Int).2 ∧
        ((c, (env.getLength (t.mLastScenePos - c) : Int)) : Point × Int).2 ≤
          (env.getLength
            (t.mLastScenePos - env.mappedToGrid t.mLastScenePos view.gridInterval) : Int) :=
      ⟨Int.ofNat_nonneg _, Int.ofNat_le.mpr hgrid⟩
    rw [if_pos hcond] at h
    exact ⟨congrArg Prod.fst h, congrArg Prod.snd h⟩

/-- Witness for C21: raw position (3,0), grid 10, candidates (3,2), (4,0),
(3,1) in this order; (4,0) and (3,1) are both at distance 1 and the earlier
one, (4,0), is taken. -/
theorem updateCursorPosition_first_minimum_witness :
    scanNearest stdEnv (sampleTool ⟨3, 0⟩ [⟨3, 2⟩, ⟨4, 0⟩, ⟨3, 1⟩] none none).mLastScenePos
        (sampleTool ⟨3, 0⟩ [⟨3, 2⟩, ⟨4, 0⟩, ⟨3, 1⟩] none none).mSnapCandidates =
      (⟨4, 0⟩, (stdEnv.getLength
        ((sampleTool ⟨3, 0⟩ [⟨3, 2⟩, ⟨4, 0⟩, ⟨3, 1⟩] none none).mLastScenePos - ⟨4, 0⟩) : Int)) ∧
    (updateCursorPosition stdEnv (sampleTool ⟨3, 0⟩ [⟨3, 2⟩, ⟨4, 0⟩, ⟨3, 1⟩] none none)
      0).mCursorPos = ⟨4, 0⟩ ∧
    (updateCursorPosition stdEnv (sampleTool ⟨3, 0⟩ [⟨3, 2⟩, ⟨4, 0⟩, ⟨3, 1⟩] none none)
      0).mCursorSnapped = true := by
  have h := updateCursorPosition_first_minimum stdEnv
    (sampleTool ⟨3, 0⟩ [⟨3, 2⟩, ⟨4, 0⟩, ⟨3, 1⟩] none none) sampleView 0 [⟨3, 2⟩] [⟨3, 1⟩] ⟨4, 0⟩
    rfl (by decide) rfl (by decide) (by decide)
  exact ⟨h.1, h.2.2 (by decide)⟩

/-! ## Circle cardinality -/

/-- C22 fails as stated: a circle of diameter 1 at (10,20) has the center as its
only candidate, because `1 / 2 = 0` and the set keeps one copy of a point. -/
theorem snapCandidatesFromCircle_card_counterexample :
    snapCandidatesFromCircle ⟨10, 20⟩ 1 = [⟨10, 20⟩] ∧
    (snapCandidatesFromCircle ⟨10, 20⟩ 1).length ≠ 5 := by
  decide

/-- C22 as amended: for every center and every diameter `D ≥ 2` the circle has
five candidates (the center and four distinct cardinal points); for `D = 0` and
`D = 1` the center is the only candidate. -/
theorem snapCandidatesFromCircle_card (C : Point) (D : Int) :
    (2 ≤ D → (snapCandidatesFromCircle C D).length = 5) ∧
    (0 ≤ D → D < 2 → snapCandidatesFromCircle C D = [C]) := by
  obtain ⟨cx, cy⟩ := C
  have hneg : Length.div (-D) 2 = -(Length.div D 2) := Int.neg_tdiv D 2
  constructor
  · intro hD
    have hr : 1 ≤ Length.div D 2 := by
      show 1 ≤ Int.tdiv D 2
      rw [Int.tdiv_eq_ediv (by omega) (by omega)]
      omega
    unfold snapCandidatesFromCircle
    rw [hneg]
    generalize Length.div D 2 = r at hr
    have h1 : ¬ (cy + r = cy) := by omega
    have h2 : ¬ (cy + -r = cy) := by omega
    have h3 : ¬ (cy + -r = cy + r) := by omega
    have h4 : ¬ (cx + r = cx) := by omega
    have h5 : ¬ (cx + -r = cx) := by omega
    have h6 : ¬ (cx + -r = cx + r) := by omega
    simp [QSet.insert, Point.add_mk, h1, h2, h3, h4, h5, h6]
  · intro h0 h2
    have hr : Length.div D 2 = 0 := by
      show Int.tdiv D 2 = 0
      rw [Int.tdiv_eq_ediv h0 (by omega)]
      omega
    unfold snapCandidatesFromCircle
    rw [hneg, hr]
    simp [QSet.insert, Point.add_mk]

/-- Witness for C22 as amended: diameter 2 gives five candidates, diameter 1
gives the center alone. -/
theorem snapCandidatesFromCircle_card_witness :
    (snapCandidatesFromCircle ⟨10, 20⟩ 2).length = 5 ∧
    snapCandidatesFromCircle ⟨10, 20⟩ 1 = [⟨10, 20⟩] :=
  ⟨(snapCandidatesFromCircle_card ⟨10, 20⟩ 2).1 (by decide),
    (snapCandidatesFromCircle_card ⟨10, 20⟩ 1).2 (by decide) (by decide)⟩

/-! ## Cursor glyph -/

/-- C23: with a view attached, `updateRulerPositions` hands the view the cursor
position with options whose `cross` flag is set exactly when the session is not
`Pending` (start unset or end set) and whose `circle` flag is set exactly when
the cursor is snapped; an unsnapped cursor in `Pending` has no flag set. -/
theorem updateRulerPositions_cursor (env : Env) (t : MeasureTool) (view : GraphicsView)
    (hview : t.mView = some view) :
    ∃ options : CursorOptions,
      Option.map GraphicsView.sceneCursor (updateRulerPositions env t).mView =
        some (some (t.mCursorPos, options)) ∧
      (options.cross = true ↔ t.state ≠ SessionState.Pending) ∧
      (options.cross = true ↔ (t.mStartPos = none ∨ t.mEndPos.isSome = true)) ∧
      (options.circle = true ↔ t.mCursorSnapped = true) ∧
      (t.state = SessionState.Pending → t.mCursorSnapped = false →
        options = ⟨false, false⟩) := by
  cases hs : t.mStartPos <;> cases he : t.mEndPos <;> cases hc : t.mCursorSnapped <;>
    simp [updateRulerPositions, MeasureTool.state, hview, hs, he, hc]

/-- Witness for C23: a pending session with an unsnapped cursor at (3,0) gets a
cursor with no flag set. -/
theorem updateRulerPositions_cursor_witness :
    ∃ options : CursorOptions,
      Option.map GraphicsView.sceneCursor
        (updateRulerPositions stdEnv (sampleTool ⟨3, 0⟩ [] (some ⟨1, 1⟩) none)).mView =
          some (some ((sampleTool ⟨3, 0⟩ [] (some ⟨1, 1⟩) none).mCursorPos, options)) ∧
      options = ⟨false, false⟩ := by
  obtain ⟨options, h1, _, _, _, h5⟩ :=
    updateRulerPositions_cursor stdEnv (sampleTool ⟨3, 0⟩ [] (some ⟨1, 1⟩) none) sampleView rfl
  exact ⟨options, h1, h5 rfl rfl⟩

/-! ## Device validity -/

/-- C24: `Device::checkAttributesValidity` returns true exactly when the base
`LibraryElement` check passes, the component UUID is not null, the package UUID
is not null and no key of the pad-signal map is null; the signal UUIDs stored
as values play no role, so a null signal does not make the device invalid. -/
theorem device_validity (baseCheck : LibraryElement → Bool) (d : Device) :
    (d.checkAttributesValidity baseCheck = true ↔
      baseCheck d.base = true ∧ d.mComponentUuid.isNull = false ∧
      d.mPackageUuid.isNull = false ∧ ∀ k ∈ d.padKeys, k.isNull = false) ∧
    (∀ f : QUuid → QUuid,
      Device.checkAttributesValidity baseCheck
          { d with mPadSignalMap := d.mPadSignalMap.map fun kv => (kv.1, f kv.2) } =
        d.checkAttributesValidity baseCheck) := by
  constructor
  · unfold Device.checkAttributesValidity
    cases hb : baseCheck d.base <;> cases hc : d.mComponentUuid.isNull <;>
      cases hp : d.mPackageUuid.isNull <;> simp [padKeysLoop_eq_true]
  · intro f
    unfold Device.checkAttributesValidity Device.padKeys
    simp [List.map_map, Function.comp_def]

/-- Witness for C24: the sample device, whose only pad is mapped to the null
signal UUID, is valid. -/
theorem device_validity_witness :
    Device.checkAttributesValidity sampleBaseCheck sampleDevice = true :=
  (device_validity sampleBaseCheck sampleDevice).1.mpr ⟨rfl, rfl, rfl, by decide⟩

end librepcb
